import Mathlib

/-!
Verification model of the hagr controller core (Nintendo Switch Pro controller
to XInput bridge).  The definitions below are a shallow embedding written from
the C++ sources:

* `src/Pipes.cpp` / `src/Pipes.h` — overlapped pipe state machines, buffers;
* `src/Pro.cpp` — packet adaptor (`PacketAdaptor::Translate`, `RemapAxis`,
  `DecodeBatteryLevel`), `GetLastPacket`, `ProAgent::TryUpdate`,
  `ProAgent::GetCachedState` / `GetBatteryInfo`;
* `src/ProInternals.h` — packet layout, `UInt24`, button bit positions.

The stick remap in `RemapAxis` is computed in IEEE-754 single precision
(`float`).  Every intermediate value of that computation lies well inside the
normal binary32 range, so the arithmetic is modelled exactly: values are dyadic
rationals `num / 2^exp`, and each float operation rounds its exact result to a
24-bit significand with round-to-nearest, ties to even — precisely what the
hardware does for these in-range operations.
-/

namespace Hagr

/-! ### Exact model of IEEE-754 binary32 arithmetic (normal range) -/

/-- Fuel-driven floor-log₂.  (The library versions use well-founded recursion,
which the kernel does not unfold; this one is structural in its fuel.) -/
def log2Fuel : ℕ → ℕ → ℕ
  | 0, _ => 0
  | fuel + 1, n => if 2 ≤ n then log2Fuel fuel (n / 2) + 1 else 0

/-- `natLog2 n` is ⌊log₂ n⌋ for `n ≥ 1` (and `0` at `0`). -/
def natLog2 (n : ℕ) : ℕ := log2Fuel n n

/-- Round `a / b` to the nearest natural number, ties to even (`b > 0`). -/
def rneDiv (a b : ℕ) : ℕ :=
  if 2 * (a % b) < b then a / b
  else if b < 2 * (a % b) then a / b + 1
  else if (a / b) % 2 = 0 then a / b else a / b + 1

/-- A dyadic rational `num / 2^exp`: the exact value of a binary32 quantity. -/
structure Dy where
  num : ℤ
  exp : ℕ
deriving DecidableEq

/-- The 24-bit significand of a positive numerator `m` with `2^l ≤ m <
2^(l+1)`, `l = natLog2 m`: round `m` to the grid with spacing `2^(l-23)`,
nearest, ties to even (below the grid the scaling is exact). -/
def mantOf (m : ℕ) : ℕ :=
  if 23 ≤ natLog2 m then rneDiv m (2 ^ (natLog2 m - 23))
  else m * 2 ^ (23 - natLog2 m)

/-- Round a dyadic value to the binary32 grid: keep a 24-bit significand
(`mantOf`), round to nearest, ties to even.  Subnormals and overflow are not
modelled; every value arising in this development is far inside the normal
range. -/
def fl32 (x : Dy) : Dy :=
  if x.num = 0 then ⟨0, 0⟩
  else
    let m := x.num.natAbs
    let sgn : ℤ := if x.num < 0 then -1 else 1
    let l := natLog2 m
    -- x = sgn * m / 2^x.exp; the rounded value is sgn * mantOf m * 2^(l-23-x.exp)
    if x.exp + 23 ≤ l then ⟨sgn * (mantOf m * 2 ^ (l - 23 - x.exp) : ℕ), 0⟩
    else ⟨sgn * (mantOf m : ℕ), x.exp + 23 - l⟩

/-- Float multiplication: the exact product of two dyadics, rounded. -/
def dyMul (a b : Dy) : Dy := fl32 ⟨a.num * b.num, a.exp + b.exp⟩

/-- Float multiplication by an integer constant that is itself exactly
representable (here `0x7FFF` and `0x8000`): the exact product, rounded. -/
def dyMulInt (a : Dy) (k : ℤ) : Dy := fl32 ⟨a.num * k, a.exp⟩

/-- Binary32 result of the float division `1.f / r` for an integer `r ≥ 1`:
the correctly rounded reciprocal. -/
def flInv (r : ℕ) : Dy :=
  if r = 0 then ⟨0, 0⟩
  else
    let t := natLog2 r
    -- 1/r has binade exponent -t when r = 2^t and -(t+1) otherwise
    let e : ℕ := if r = 2 ^ t then t else t + 1
    ⟨(rneDiv (2 ^ (e + 23)) r : ℕ), e + 23⟩

/-- Truncation toward zero of a dyadic value: the semantics of C++
`static_cast<int16_t>(float)` for in-range values. -/
def dyTrunc (x : Dy) : ℤ :=
  if 0 ≤ x.num then ((x.num.toNat / 2 ^ x.exp : ℕ) : ℤ)
  else -((x.num.natAbs / 2 ^ x.exp : ℕ) : ℤ)

/-! ### `PacketAdaptor::RemapAxis` (src/Pro.cpp, lines 305–340) -/

/-- C++ `static_cast<int16_t>` applied to an unsigned value. -/
def toInt16 (v : ℕ) : ℤ :=
  if v % 65536 < 32768 then (v % 65536 : ℤ) else (v % 65536 : ℤ) - 65536

/-- One of the `DEFINE_REMAP_CONFIG` enums in src/Pro.cpp (the fields are the
`max` / `min` / `neutral` enumerator values, all of which fit in `int16_t`). -/
structure RemapConfig where
  maxV : ℤ
  minV : ℤ
  neutral : ℤ
deriving DecidableEq

def RamapConfigLeftX : RemapConfig := ⟨0xE20, 0x220, 0x7E0⟩
def RamapConfigLeftY : RemapConfig := ⟨0xE20, 0x1B0, 0x7A0⟩
def RamapConfigRightX : RemapConfig := ⟨0xE00, 0x230, 0x800⟩
def RamapConfigRightY : RemapConfig := ⟨0xE20, 0x150, 0x770⟩

/-- The branch structure of `RemapAxis` after `signedVal` has been formed.
`s` is the (exactly converted) value `clamp((int16_t)value) - k_neutral`:

    if (signedVal > 0)  return (int16_t)(signedVal * (1.f/(k_max - k_neutral)) * 0x7FFF);
    if (signedVal < 0)  return (int16_t)(signedVal * (1.f/(k_neutral - k_min)) * 0x8000);
    return 0;

The `int` → `float` conversions of `signedVal`, of the scales `0x7FFF` /
`0x8000`, and of `rangeOrig = k_max - k_neutral` are exact (all magnitudes are
below `2^24`); the two runtime multiplications round (`dyMul`, `dyMulInt`); the
compile-time constant `invRangeOrig = 1.f / rangeOrig` is the correctly rounded
reciprocal (`flInv`); the final cast truncates toward zero (`dyTrunc`) and
never overflows `int16_t` for the four configurations above. -/
def RemapAxisSigned (cfg : RemapConfig) (s : ℤ) : ℤ :=
  if 0 < s then
    let invRangeOrig := flInv (cfg.maxV - cfg.neutral).toNat
    dyTrunc (dyMulInt (dyMul ⟨s, 0⟩ invRangeOrig) 0x7FFF)
  else if s < 0 then
    let invRangeOrig := flInv (cfg.neutral - cfg.minV).toNat
    dyTrunc (dyMulInt (dyMul ⟨s, 0⟩ invRangeOrig) 0x8000)
  else 0

/-- `PacketAdaptor::RemapAxis<Config>(uint16_t value)`:

    const float signedVal = (float)(std::clamp((int16_t)value, k_min, k_max) - k_neutral);

followed by the sign-branched scaling modelled by `RemapAxisSigned`.
`std::clamp(v, lo, hi)` is `v < lo ? lo : hi < v ? hi : v`, i.e.
`max lo (min hi v)` for `lo ≤ hi`. -/
def RemapAxis (cfg : RemapConfig) (value : ℕ) : ℤ :=
  RemapAxisSigned cfg (max cfg.minV (min cfg.maxV (toInt16 value)) - cfg.neutral)

/-! ### Spec-side stick formulas (§4.3 of the specification)

`specRemapRound` is the remap formula exactly as the specification states it
(claim C3): clamp, offset from neutral, then `round(s * 0x7FFF / (max −
neutral))` resp. `round(s * 0x8000 / (neutral − min))`, with `round` the usual
rounding to the nearest integer (ties away from zero).  `specRemapFloat` is the
amended formula: the same clamp and offset, but the quotient is evaluated the
way the implementation evaluates it — in single-precision float arithmetic as
`s · fl(1/range) · scale` — and then truncated toward zero. -/

/-- Round `a / b` (`b > 0`) to the nearest integer, ties away from zero. -/
def roundNearestDiv (a : ℤ) (b : ℕ) : ℤ :=
  if 0 ≤ a then ((2 * a.toNat + b) / (2 * b) : ℕ)
  else -(((2 * a.natAbs + b) / (2 * b) : ℕ) : ℤ)

/-- Claim C3's formula, verbatim from the spec (exact rational arithmetic,
rounded to nearest). -/
def specRemapRound (cfg : RemapConfig) (v : ℕ) : ℤ :=
  let clamped : ℤ := min cfg.maxV (max cfg.minV (v : ℤ))
  let s := clamped - cfg.neutral
  if 0 < s then roundNearestDiv (s * 0x7FFF) (cfg.maxV - cfg.neutral).toNat
  else if s < 0 then roundNearestDiv (s * 0x8000) (cfg.neutral - cfg.minV).toNat
  else 0

/-- The amended formula: clamp, offset, then the single-precision evaluation of
`s · (1/range) · scale`, truncated toward zero. -/
def specRemapFloat (cfg : RemapConfig) (v : ℕ) : ℤ :=
  let clamped : ℤ := min cfg.maxV (max cfg.minV (v : ℤ))
  let s := clamped - cfg.neutral
  if 0 < s then
    dyTrunc (dyMulInt (dyMul ⟨s, 0⟩ (flInv (cfg.maxV - cfg.neutral).toNat)) 0x7FFF)
  else if s < 0 then
    dyTrunc (dyMulInt (dyMul ⟨s, 0⟩ (flInv (cfg.neutral - cfg.minV).toNat)) 0x8000)
  else 0

/-! ### Packet model (src/ProInternals.h) -/

/-- Read byte `i` of a byte buffer (bytes after the end read as 0; every stored
value is reduced mod 256 as a `uint8_t`). -/
def byteAt (l : List ℕ) (i : ℕ) : ℕ := l.getD i 0 % 256

/-- `UInt24` from src/ProInternals.h: three little-endian bytes. -/
structure UInt24 where
  b0 : ℕ
  b1 : ℕ
  b2 : ℕ
deriving DecidableEq

/-- `UInt24::operator uint32_t`: `(bytes[2] << 16) | (bytes[1] << 8) | bytes[0]`. -/
def UInt24.toUInt32 (u : UInt24) : ℕ :=
  ((u.b2 % 256) <<< 16) ||| ((u.b1 % 256) <<< 8) ||| (u.b0 % 256)

/-- `UInt24::Split`: two 12-bit halves
`(bytes[0] | ((bytes[1] & 0xF) << 8), (bytes[2] << 4) | (bytes[1] >> 4))`. -/
def UInt24.Split (u : UInt24) : ℕ × ℕ :=
  ((u.b0 % 256) ||| (((u.b1 % 256) &&& 0xF) <<< 8),
   ((u.b2 % 256) <<< 4) ||| ((u.b1 % 256) >>> 4))

/-- `DeviceSubPacket::FullStates` (= `CommonStates`): the payload of a 0x30
packet.  Field offsets inside the 64-byte packet: type 0, timestamp 1,
batteryAndWired 2, keys 3–5, leftStick 6–8, rightStick 9–11, vibration 12. -/
structure FullStates where
  timestamp : ℕ
  batteryAndWired : ℕ
  keys : UInt24
  leftStick : UInt24
  rightStick : UInt24
  vibration : ℕ
deriving DecidableEq

/-- View a 64-byte packet (given as its byte list) as a `FullStates` payload,
following the packed layout of `Packet` / `DeviceSubPacket::CommonStates`. -/
def parseFullStates (p : List ℕ) : FullStates :=
  { timestamp := byteAt p 1
    batteryAndWired := byteAt p 2
    keys := ⟨byteAt p 3, byteAt p 4, byteAt p 5⟩
    leftStick := ⟨byteAt p 6, byteAt p 7, byteAt p 8⟩
    rightStick := ⟨byteAt p 9, byteAt p 10, byteAt p 11⟩
    vibration := byteAt p 12 }

/-- `PacketType::Device_FullStates` (the packet discriminant is byte 0). -/
def Device_FullStates : ℕ := 0x30

/-- Button bit positions within the 24-bit `keys` field (src/ProInternals.h). -/
def Buttons_Y : ℕ := 0
def Buttons_X : ℕ := 1
def Buttons_B : ℕ := 2
def Buttons_A : ℕ := 3
def Buttons_R : ℕ := 6
def Buttons_ZR : ℕ := 7
def Buttons_Minus : ℕ := 8
def Buttons_Plus : ℕ := 9
def Buttons_TriggerR : ℕ := 10
def Buttons_TriggerL : ℕ := 11
def Buttons_Home : ℕ := 12
def Buttons_Share : ℕ := 13
def Buttons_Down : ℕ := 16
def Buttons_Up : ℕ := 17
def Buttons_Right : ℕ := 18
def Buttons_Left : ℕ := 19
def Buttons_L : ℕ := 22
def Buttons_ZL : ℕ := 23

/-- XInput button-mask constants (xinput.h). -/
def XINPUT_GAMEPAD_DPAD_UP : ℕ := 0x0001
def XINPUT_GAMEPAD_DPAD_DOWN : ℕ := 0x0002
def XINPUT_GAMEPAD_DPAD_LEFT : ℕ := 0x0004
def XINPUT_GAMEPAD_DPAD_RIGHT : ℕ := 0x0008
def XINPUT_GAMEPAD_START : ℕ := 0x0010
def XINPUT_GAMEPAD_BACK : ℕ := 0x0020
def XINPUT_GAMEPAD_LEFT_THUMB : ℕ := 0x0040
def XINPUT_GAMEPAD_RIGHT_THUMB : ℕ := 0x0080
def XINPUT_GAMEPAD_LEFT_SHOULDER : ℕ := 0x0100
def XINPUT_GAMEPAD_RIGHT_SHOULDER : ℕ := 0x0200
def XINPUT_GAMEPAD_A : ℕ := 0x1000
def XINPUT_GAMEPAD_B : ℕ := 0x2000
def XINPUT_GAMEPAD_X : ℕ := 0x4000
def XINPUT_GAMEPAD_Y : ℕ := 0x8000

/-- Battery constants (xinput.h). -/
def BATTERY_TYPE_NIMH : ℕ := 0x03
def BATTERY_LEVEL_EMPTY : ℕ := 0x00
def BATTERY_LEVEL_LOW : ℕ := 0x01
def BATTERY_LEVEL_MEDIUM : ℕ := 0x02
def BATTERY_LEVEL_FULL : ℕ := 0x03

/-- `IsSet(val, index)` from src/Pro.cpp: `((val >> index) & 1) == 1`. -/
def IsSet (val : ℕ) (index : ℕ) : Bool := ((val >>> index) &&& 1) == 1

/-- `XINPUT_STATE` with its embedded `XINPUT_GAMEPAD` flattened (only the
fields the adaptor populates). -/
structure XINPUT_STATE where
  dwPacketNumber : ℕ
  wButtons : ℕ
  bLeftTrigger : ℕ
  bRightTrigger : ℕ
  sThumbLX : ℤ
  sThumbLY : ℤ
  sThumbRX : ℤ
  sThumbRY : ℤ
deriving DecidableEq

structure XINPUT_BATTERY_INFORMATION where
  BatteryType : ℕ
  BatteryLevel : ℕ
deriving DecidableEq

/-- `PacketAdaptor::DecodeBatteryLevel`: battery nibble is the high nibble of
`batteryAndWired`; `≥7 → FULL`, `≥4 → MEDIUM`, `≥1 → LOW`, else `EMPTY`. -/
def DecodeBatteryLevel (batteryAndWired : ℕ) : ℕ :=
  let battery := (batteryAndWired % 256) >>> 4
  if 7 ≤ battery then BATTERY_LEVEL_FULL
  else if 4 ≤ battery then BATTERY_LEVEL_MEDIUM
  else if 1 ≤ battery then BATTERY_LEVEL_LOW
  else BATTERY_LEVEL_EMPTY

/-- The `wButtons` accumulation inside `PacketAdaptor::Translate` (the chain of
`|=` statements, lifted into one expression). -/
def wButtonsOf (buttons : ℕ) : ℕ :=
  (if IsSet buttons Buttons_Y then XINPUT_GAMEPAD_X else 0) |||
  (if IsSet buttons Buttons_X then XINPUT_GAMEPAD_Y else 0) |||
  (if IsSet buttons Buttons_B then XINPUT_GAMEPAD_A else 0) |||
  (if IsSet buttons Buttons_A then XINPUT_GAMEPAD_B else 0) |||
  (if IsSet buttons Buttons_R then XINPUT_GAMEPAD_RIGHT_SHOULDER else 0) |||
  (if IsSet buttons Buttons_Minus then XINPUT_GAMEPAD_BACK else 0) |||
  (if IsSet buttons Buttons_Plus then XINPUT_GAMEPAD_START else 0) |||
  (if IsSet buttons Buttons_TriggerR then XINPUT_GAMEPAD_RIGHT_THUMB else 0) |||
  (if IsSet buttons Buttons_TriggerL then XINPUT_GAMEPAD_LEFT_THUMB else 0) |||
  (if IsSet buttons Buttons_Down then XINPUT_GAMEPAD_DPAD_DOWN else 0) |||
  (if IsSet buttons Buttons_Up then XINPUT_GAMEPAD_DPAD_UP else 0) |||
  (if IsSet buttons Buttons_Right then XINPUT_GAMEPAD_DPAD_RIGHT else 0) |||
  (if IsSet buttons Buttons_Left then XINPUT_GAMEPAD_DPAD_LEFT else 0) |||
  (if IsSet buttons Buttons_L then XINPUT_GAMEPAD_LEFT_SHOULDER else 0)

/-- `PacketAdaptor::Translate` on the `Device_FullStates` payload. -/
def Translate (gs : FullStates) : XINPUT_STATE × XINPUT_BATTERY_INFORMATION :=
  let lxy := gs.leftStick.Split
  let rxy := gs.rightStick.Split
  let buttons := gs.keys.toUInt32
  ({ dwPacketNumber := gs.timestamp % 256
     wButtons := wButtonsOf buttons
     bLeftTrigger := if IsSet buttons Buttons_ZL then 0xFF else 0
     bRightTrigger := if IsSet buttons Buttons_ZR then 0xFF else 0
     sThumbLX := RemapAxis RamapConfigLeftX lxy.1
     sThumbLY := RemapAxis RamapConfigLeftY lxy.2
     sThumbRX := RemapAxis RamapConfigRightX rxy.1
     sThumbRY := RemapAxis RamapConfigRightY rxy.2 },
   { BatteryType := BATTERY_TYPE_NIMH
     BatteryLevel := DecodeBatteryLevel gs.batteryAndWired })

/-- `GetLastPacket` (src/Pro.cpp): iterate the buffer in 64-byte packets and
keep the last one whose type byte is `Device_FullStates`. -/
def GetLastPacket (buffer : List ℕ) : Option (List ℕ) :=
  (List.range (buffer.length / 64)).foldl
    (fun acc i =>
      let p := (buffer.drop (64 * i)).take 64
      if byteAt p 0 = Device_FullStates then some p else acc)
    none

/-- Select the last full-states packet of a read buffer and translate it, as
`ProAgent::TryUpdate` does on a successful read. -/
def translateBuffer (buffer : List ℕ) :
    Option (XINPUT_STATE × XINPUT_BATTERY_INFORMATION) :=
  (GetLastPacket buffer).map fun p => Translate (parseFullStates p)

/-- The 64-byte packet of claim C1 (bytes begin
`30 00 00 00 00 00 E0 07 80 F0 77 00`, remainder zero). -/
def c1Packet : List ℕ :=
  [0x30, 0x00, 0x00, 0x00, 0x00, 0x00, 0xE0, 0x07, 0x80, 0xF0, 0x77, 0x00] ++
    List.replicate 52 0

/-- A corrected neutral packet: same type/timestamp/battery/keys, with stick
bytes that actually encode leftStick = (0x7E0, 0x7A0) and
rightStick = (0x800, 0x770) under `UInt24::Split`. -/
def c1PacketAmended : List ℕ :=
  [0x30, 0x00, 0x00, 0x00, 0x00, 0x00, 0xE0, 0x07, 0x7A, 0x00, 0x08, 0x77] ++
    List.replicate 52 0

/-! ### Pipes (src/Pipes.cpp) -/

/-- `Pipe::OpResultCode`. -/
inductive OpResultCode where
  | success
  | stillExecuting
  | invalidFile
deriving DecidableEq

/-- Windows error codes used by the pipe layer. -/
def NO_ERROR : ℕ := 0
def ERROR_IO_PENDING : ℕ := 997

/-- State of a `ReadPipe`.  `valid` is `IsValid()` (the overlapped record and
buffer exist); `opExecuting` is `IsOpExecuting()` (an operation was submitted
and has not been observed complete); `internalBuffer` is `m_buffer`'s contents;
`kernelBytesRead` is what `GetOverlappedResult` reports for the last completed
read; `isResultConsumed` is the `m_isResultConsumed` flag. -/
structure ReadPipeState where
  valid : Bool
  opExecuting : Bool
  isResultConsumed : Bool
  internalBuffer : List ℕ
  kernelBytesRead : ℕ
deriving DecidableEq

/-- `ReadPipe::Read()`.  `Pipe::Helper::ExecuteOp` checks validity, then the
in-flight flag, then runs `ReadFile` and inspects `GetLastError()`: pending or
`NO_ERROR` count as a successful submission (the operation is then in flight);
any other error returns `InvalidFile` with that code and resets
`m_overlapped->Internal` to 0, so the pipe is no longer marked executing.  On a
successful submission `m_isResultConsumed` is cleared.  The model takes the
observed `GetLastError()` value as the parameter `osError`. -/
def ReadPipeRead (s : ReadPipeState) (osError : ℕ) :
    OpResultCode × ℕ × ReadPipeState :=
  if !s.valid then (.invalidFile, NO_ERROR, s)
  else if s.opExecuting then (.stillExecuting, NO_ERROR, s)
  else if osError = ERROR_IO_PENDING ∨ osError = NO_ERROR then
    (.success, NO_ERROR, { s with opExecuting := true, isResultConsumed := false })
  else
    (.invalidFile, osError, { s with opExecuting := false })

/-- The kernel completing an in-flight read: the completion event fires
(`HasOverlappedIoCompleted` becomes true), `data` is what the device delivered
into `m_buffer`, and the kernel byte count is recorded. -/
def kernelCompleteRead (s : ReadPipeState) (bytes : ℕ) (data : List ℕ) :
    ReadPipeState :=
  { s with opExecuting := false, kernelBytesRead := bytes,
           internalBuffer := data }

/-- Result of `ReadPipe::GetResult`: the code, the system error, the returned
byte count, and the bytes copied into the caller's buffer. -/
structure GetResultOutcome where
  code : OpResultCode
  sysError : ℕ
  bytes : ℕ
  copied : List ℕ
  state : ReadPipeState
deriving DecidableEq

/-- `ReadPipe::GetResult(outBuffer)` (src/Pipes.cpp lines 192–218).
`outSize` is `outBuffer.size`; `overlappedOk` is whether
`GetOverlappedResult` succeeds (it does whenever a read completed
successfully); `osError` is `GetLastError()` in the failure branch. -/
def GetResult (s : ReadPipeState) (outSize : ℕ) (overlappedOk : Bool)
    (osError : ℕ) : GetResultOutcome :=
  if !s.valid then ⟨.invalidFile, NO_ERROR, 0, [], s⟩
  else if s.opExecuting then ⟨.stillExecuting, NO_ERROR, 0, [], s⟩
  else if s.isResultConsumed then ⟨.success, NO_ERROR, 0, [], s⟩
  else if overlappedOk then
    ⟨.success, NO_ERROR, s.kernelBytesRead,
      s.internalBuffer.take (min s.kernelBytesRead outSize),
      { s with isResultConsumed := true }⟩
  else ⟨.invalidFile, osError, 0, [], s⟩

/-- State of a `WritePipe`: validity, the in-flight flag, and the contents of
its internal buffer `m_buffer` (whose length is the pipe's buffer size). -/
structure WritePipeState where
  valid : Bool
  opExecuting : Bool
  buffer : List ℕ
deriving DecidableEq

/-- Result of `WritePipe::Write`: code, system error, the bytes handed to
`WriteFile` if a submission was made, and the post-state. -/
structure WriteOutcome where
  code : OpResultCode
  sysError : ℕ
  submitted : Option (List ℕ)
  state : WritePipeState
deriving DecidableEq

/-- `WritePipe::Write(buffer)` (src/Pipes.cpp lines 226–242): an early
`StillExecuting` return if an operation is in flight; otherwise `m_buffer` is
zero-filled, the caller's bytes are copied in (the call sites all satisfy
`buffer.size <= m_buffer->size`, which the source asserts), and
`Pipe::Helper::ExecuteOp` runs `WriteFile(m_file, m_buffer->data,
m_buffer->size, ...)` — always the full internal buffer.  `osError` is the
`GetLastError()` value observed after the submission. -/
def WritePipeWrite (s : WritePipeState) (input : List ℕ) (osError : ℕ) :
    WriteOutcome :=
  if s.opExecuting then ⟨.stillExecuting, NO_ERROR, none, s⟩
  else
    let buf := input.take s.buffer.length ++
      List.replicate (s.buffer.length - input.length) 0
    let s1 : WritePipeState := { s with buffer := buf }
    if !s.valid then ⟨.invalidFile, NO_ERROR, none, s1⟩
    else if osError = ERROR_IO_PENDING ∨ osError = NO_ERROR then
      ⟨.success, NO_ERROR, some buf, { s1 with opExecuting := true }⟩
    else ⟨.invalidFile, osError, none, { s1 with opExecuting := false }⟩

/-- `DeviceIoPipes::PipeParams` and the agent's instance
`k_pipeParams = { 128, 64 }` (src/Pro.cpp line 46). -/
structure PipeParams where
  readBufferSize : ℕ
  writeBufferSize : ℕ

def k_pipeParams : PipeParams := ⟨128, 64⟩

/-- Outcome of `DeviceIoPipes::SyncAll`: the returned code and the budget that
was passed to `SyncWrite`, if it was invoked at all. -/
structure SyncAllOutcome where
  result : OpResultCode
  writeBudget : Option ℕ
deriving DecidableEq

/-- `DeviceIoPipes::SyncAll(timeout)` (src/Pipes.cpp lines 311–329): wait for
the read with the whole budget; only if that returns `Success`, measure the
elapsed time and, when `timeout > elapsed`, wait for the write with
`timeout - elapsed`; when the elapsed time already reaches the budget, return
`StillExecuting` without waiting for the write.  `elapsed` is the value of
`timer.GetElapsed()` after the read wait; `syncWrite` gives the result of
`SyncWrite` as a function of the budget it receives. -/
def SyncAll (timeout elapsed : ℕ) (syncReadResult : OpResultCode)
    (syncWrite : ℕ → OpResultCode) : SyncAllOutcome :=
  if syncReadResult = .success then
    if elapsed < timeout then
      ⟨syncWrite (timeout - elapsed), some (timeout - elapsed)⟩
    else ⟨.stillExecuting, none⟩
  else ⟨syncReadResult, none⟩

/-! ### Controller agent (src/Pro.cpp) -/

/-- Unsigned 64-bit subtraction `a - b`, as computed on `uint64_t` values
(`GetTickCount64() - m_cachedStates.timestamp`). -/
def sub64 (a b : ℕ) : ℕ := (a % 2 ^ 64 + (2 ^ 64 - b % 2 ^ 64)) % 2 ^ 64

/-- `k_packetTimeout = 100` ms (src/Pro.cpp line 48). -/
def k_packetTimeout : ℕ := 100

/-- `ProAgent::CachedStates`: timestamp plus the cached records.  The lock is
not part of the functional model. -/
structure CachedStates where
  timestamp : ℕ
  gamepad : XINPUT_STATE
  battery : XINPUT_BATTERY_INFORMATION
deriving DecidableEq

/-- The `CachedStates` constructor: timestamp 0, both records zero-filled. -/
def CachedStatesInit : CachedStates :=
  { timestamp := 0
    gamepad := ⟨0, 0, 0, 0, 0, 0, 0, 0⟩
    battery := ⟨0, 0⟩ }

/-- `ProAgent::GetCachedState`: copy the cached gamepad record and report
whether it is fresh (`now - timestamp < k_packetTimeout`, on `uint64_t`). -/
def GetCachedState (c : CachedStates) (now : ℕ) : XINPUT_STATE × Bool :=
  (c.gamepad, sub64 now c.timestamp < k_packetTimeout)

/-- `ProAgent::GetBatteryInfo`: same freshness rule for the battery record. -/
def GetBatteryInfo (c : CachedStates) (now : ℕ) :
    XINPUT_BATTERY_INFORMATION × Bool :=
  (c.battery, sub64 now c.timestamp < k_packetTimeout)

/-- Environment of one `ProAgent::TryUpdate` tick: everything the tick observes
from the outside world.  `fileValid` is `m_devPipes.IsFileValid()` at entry;
`reattachResult` is what `ReattachToDevice()` returns if it is invoked (it is
invoked at most once per tick, so one value suffices); `popResult` is the code
from `PopReadResult`; `readResult` the code from the follow-up `Read()` in the
success branch; `packetFound` whether `GetLastPacket` finds a full-states
packet; `now` is `GetTickCount64()`; `cachedTimestamp` the cache timestamp. -/
structure TickEnv where
  fileValid : Bool
  reattachResult : Bool
  popResult : OpResultCode
  readResult : OpResultCode
  packetFound : Bool
  now : ℕ
  cachedTimestamp : ℕ
deriving DecidableEq

/-- Observable outcome of one `TryUpdate` tick. -/
structure TickOutcome where
  ret : Bool
  reattachAttempts : ℕ
  pipesClosed : Bool
  cacheUpdated : Bool
deriving DecidableEq

/-- The part of `TryUpdate` after the entry reattach check.  `attempts0`
reattach attempts have already been made this tick and `charges` is what
remains of the single-use `Tearoff` gate (`RunSafe` runs the reattach only when
a charge remains, and consumes it). -/
def tryUpdateAfterPop (env : TickEnv) (attempts0 charges : ℕ) : TickOutcome :=
  match env.popResult with
  | .invalidFile =>
    ⟨false, attempts0 + min charges 1, true, false⟩
  | .stillExecuting =>
    if k_packetTimeout < sub64 env.now env.cachedTimestamp then
      ⟨false, attempts0 + min charges 1, true, false⟩
    else
      ⟨true, attempts0, false, false⟩
  | .success =>
    let updated := env.packetFound
    if env.readResult = .invalidFile then
      ⟨true, attempts0 + min charges 1, true, updated⟩
    else
      ⟨true, attempts0, false, updated⟩

/-- `ProAgent::TryUpdate` (src/Pro.cpp lines 398–448).  The `Tearoff` gate
starts with one charge.  If the handle is invalid the gate is used immediately
(`reattachRequest(this)`); a failed reattach ends the tick with `false`.
Otherwise the tick drains the last read and proceeds per `tryUpdateAfterPop`. -/
def TryUpdate (env : TickEnv) : TickOutcome :=
  if !env.fileValid then
    if !env.reattachResult then ⟨false, 1, false, false⟩
    else tryUpdateAfterPop env 1 0
  else tryUpdateAfterPop env 0 1


/-! ## Theorems -/

/-- Claim C1, counterexample: for the 64-byte packet whose bytes begin
`30 00 00 00 00 00 E0 07 80 F0 77 00` (remainder zero), selecting the last
`Device_FullStates` packet and translating it does *not* yield all-zero stick
axes: under `UInt24::Split` those bytes decode to leftStick = (0x7E0, 0x800),
rightStick = (0x7F0, 0x007) — not the neutral positions the claim asserts — so
the translated state has sThumbLY = 1890, sThumbRX = -352, sThumbRY = -32768. -/
theorem C1_counterexample :
    (translateBuffer c1Packet).isSome = true ∧
    (translateBuffer c1Packet).map (fun r => r.1.sThumbLY) = some 1890 ∧
    (translateBuffer c1Packet).map (fun r => r.1.sThumbRX) = some (-352) ∧
    (translateBuffer c1Packet).map (fun r => r.1.sThumbRY) = some (-32768) := by
  refine ⟨by decide, by decide, by decide, by decide⟩

/-- Claim C1 as amended: for the 64-byte packet whose bytes begin
`30 00 00 00 00 00 E0 07 7A 00 08 77` with all remaining bytes zero (type 0x30,
zero timestamp, battery nibble 0, keys = 0, and stick bytes that actually
encode leftStick = (0x7E0, 0x7A0), rightStick = (0x800, 0x770)), selecting the
last `Device_FullStates` packet and translating it yields buttons = 0, both
triggers = 0, all four stick axes = 0, packet number = 0, and battery info with
type NiMH and level empty. -/
theorem C1_amended :
    translateBuffer c1PacketAmended =
      some ({ dwPacketNumber := 0, wButtons := 0, bLeftTrigger := 0,
              bRightTrigger := 0, sThumbLX := 0, sThumbLY := 0,
              sThumbRX := 0, sThumbRY := 0 },
            { BatteryType := BATTERY_TYPE_NIMH,
              BatteryLevel := BATTERY_LEVEL_EMPTY }) := by
  decide

/-- Claim C5, counterexample: with the initial cached record (timestamp 0) and
no state ever committed, both accessors report *true* whenever the tick count
is still below 100 (`now - 0 < 100` holds within the first 100 ms after boot),
contradicting "both accessors return false until the worker first commits a
state". -/
theorem C5_counterexample :
    (GetCachedState CachedStatesInit 42).2 = true ∧
    (GetBatteryInfo CachedStatesInit 42).2 = true := by
  decide

/-- Claim C5 as amended: each accessor copies the cached record and returns
true iff `now - timestamp < 100` (computed on `uint64_t`); in particular, with
the initial timestamp 0, both return false until the worker first commits a
state, provided at least 100 ms of tick count have elapsed (`100 ≤ now`). -/
theorem C5_amended (c : CachedStates) (now : ℕ) :
    (GetCachedState c now).1 = c.gamepad ∧
    (GetBatteryInfo c now).1 = c.battery ∧
    ((GetCachedState c now).2 = true ↔ sub64 now c.timestamp < 100) ∧
    ((GetBatteryInfo c now).2 = true ↔ sub64 now c.timestamp < 100) ∧
    (100 ≤ now → now < 2 ^ 64 →
      (GetCachedState CachedStatesInit now).2 = false ∧
      (GetBatteryInfo CachedStatesInit now).2 = false) := by
  refine ⟨rfl, rfl, by simp [GetCachedState, k_packetTimeout],
    by simp [GetBatteryInfo, k_packetTimeout], fun h1 h2 => ⟨?_, ?_⟩⟩
  · have : sub64 now 0 = now := by
      simp [sub64, Nat.mod_eq_of_lt h2]
      omega
    simp [GetCachedState, CachedStatesInit, k_packetTimeout, this]
    omega
  · have : sub64 now 0 = now := by
      simp [sub64, Nat.mod_eq_of_lt h2]
      omega
    simp [GetBatteryInfo, CachedStatesInit, k_packetTimeout, this]
    omega

/-- Witness for C5_amended at a concrete input. -/
theorem C5_amended_witness :
    (GetCachedState CachedStatesInit 4242).2 = false ∧
    (GetBatteryInfo CachedStatesInit 4242).2 = false :=
  (C5_amended CachedStatesInit 4242).2.2.2.2 (by decide) (by decide)

/-- Claim C9: `SyncAll(timeout)` waits for the read first; if the read wait
does not succeed its result is returned unchanged (`StillExecuting` on a
timeout); if the read succeeds after elapsed time `e < timeout` the write wait
receives exactly `timeout - e`; and if the read succeeds with `e ≥ timeout` the
result is `StillExecuting` and the write wait is never invoked. -/
theorem C9_theorem (timeout elapsed : ℕ) (readRes : OpResultCode)
    (syncWrite : ℕ → OpResultCode) :
    (readRes ≠ .success →
      SyncAll timeout elapsed readRes syncWrite = ⟨readRes, none⟩) ∧
    (readRes = .success → elapsed < timeout →
      SyncAll timeout elapsed readRes syncWrite =
        ⟨syncWrite (timeout - elapsed), some (timeout - elapsed)⟩) ∧
    (readRes = .success → timeout ≤ elapsed →
      SyncAll timeout elapsed readRes syncWrite = ⟨.stillExecuting, none⟩) := by
  refine ⟨fun h => ?_, fun h h2 => ?_, fun h h2 => ?_⟩
  · unfold SyncAll
    rw [if_neg h]
  · subst h
    unfold SyncAll
    rw [if_pos rfl, if_pos h2]
  · subst h
    unfold SyncAll
    rw [if_pos rfl, if_neg (by omega)]

/-- Witness for C9_theorem at a concrete input. -/
theorem C9_witness :
    SyncAll 400 399 .success (fun _ => OpResultCode.success) =
      ⟨.success, some 1⟩ :=
  (C9_theorem 400 399 .success (fun _ => OpResultCode.success)).2.1 rfl
    (by decide)

/-- Claim C7: after a successful `Read` has been submitted from a valid idle
pipe and the kernel has completed it with `bytes` bytes of `data`, the first
`GetResult` call returns `Success` with the kernel byte count and copies
`min(bytes, outSize)` bytes of the internal buffer; every further `GetResult`
without another `Read` returns `Success` with zero bytes, copies nothing and
leaves the state unchanged; and a later successful `Read` (plus completion)
restores the first-call behaviour. -/
theorem C7_theorem (s : ReadPipeState) (outSize bytes bytes2 : ℕ)
    (data data2 : List ℕ) (ok : Bool) (osErr : ℕ)
    (hv : s.valid = true) (hx : s.opExecuting = false) :
    (ReadPipeRead s ERROR_IO_PENDING).1 = .success ∧
    (GetResult (kernelCompleteRead (ReadPipeRead s ERROR_IO_PENDING).2.2 bytes
        data) outSize true NO_ERROR).code = .success ∧
    (GetResult (kernelCompleteRead (ReadPipeRead s ERROR_IO_PENDING).2.2 bytes
        data) outSize true NO_ERROR).bytes = bytes ∧
    (GetResult (kernelCompleteRead (ReadPipeRead s ERROR_IO_PENDING).2.2 bytes
        data) outSize true NO_ERROR).copied = data.take (min bytes outSize) ∧
    (GetResult (GetResult (kernelCompleteRead
        (ReadPipeRead s ERROR_IO_PENDING).2.2 bytes data) outSize true
        NO_ERROR).state outSize ok osErr).code = .success ∧
    (GetResult (GetResult (kernelCompleteRead
        (ReadPipeRead s ERROR_IO_PENDING).2.2 bytes data) outSize true
        NO_ERROR).state outSize ok osErr).bytes = 0 ∧
    (GetResult (GetResult (kernelCompleteRead
        (ReadPipeRead s ERROR_IO_PENDING).2.2 bytes data) outSize true
        NO_ERROR).state outSize ok osErr).copied = [] ∧
    (GetResult (GetResult (kernelCompleteRead
        (ReadPipeRead s ERROR_IO_PENDING).2.2 bytes data) outSize true
        NO_ERROR).state outSize ok osErr).state =
      (GetResult (kernelCompleteRead (ReadPipeRead s ERROR_IO_PENDING).2.2
        bytes data) outSize true NO_ERROR).state ∧
    (GetResult (kernelCompleteRead (ReadPipeRead (GetResult (kernelCompleteRead
        (ReadPipeRead s ERROR_IO_PENDING).2.2 bytes data) outSize true
        NO_ERROR).state ERROR_IO_PENDING).2.2 bytes2 data2) outSize true
        NO_ERROR).bytes = bytes2 ∧
    (GetResult (kernelCompleteRead (ReadPipeRead (GetResult (kernelCompleteRead
        (ReadPipeRead s ERROR_IO_PENDING).2.2 bytes data) outSize true
        NO_ERROR).state ERROR_IO_PENDING).2.2 bytes2 data2) outSize true
        NO_ERROR).copied = data2.take (min bytes2 outSize) := by
  simp [ReadPipeRead, kernelCompleteRead, GetResult, hv, hx, ERROR_IO_PENDING]

/-- Witness for C7_theorem at a concrete input. -/
theorem C7_witness :
    (GetResult (kernelCompleteRead
        (ReadPipeRead ⟨true, false, false, [], 0⟩ ERROR_IO_PENDING).2.2 2
        [7, 9, 0]) 64 true NO_ERROR).copied = [7, 9] :=
  (C7_theorem ⟨true, false, false, [], 0⟩ 64 2 0 [7, 9, 0] [] false 0 rfl
    rfl).2.2.2.1

/-- Claim C8: issuing `Read` or `Write` while the pipe already has an operation
in flight returns `StillExecuting` without any OS submission or state change;
and when a submission is made but the OS reports anything other than pending or
success, the call returns `InvalidFile` with that error code and clears the
in-flight flag, so a subsequent `Read`/`Write` is never answered with
`StillExecuting`. -/
theorem C8_theorem (rs : ReadPipeState) (ws : WritePipeState)
    (input : List ℕ) (e e2 : ℕ) :
    (rs.valid = true → rs.opExecuting = true →
      ReadPipeRead rs e = (.stillExecuting, NO_ERROR, rs)) ∧
    (ws.opExecuting = true →
      WritePipeWrite ws input e = ⟨.stillExecuting, NO_ERROR, none, ws⟩) ∧
    (rs.valid = true → rs.opExecuting = false → e ≠ ERROR_IO_PENDING →
      e ≠ NO_ERROR →
      ReadPipeRead rs e = (.invalidFile, e, { rs with opExecuting := false }) ∧
      (ReadPipeRead { rs with opExecuting := false } e2).1 ≠ .stillExecuting) ∧
    (ws.valid = true → ws.opExecuting = false → e ≠ ERROR_IO_PENDING →
      e ≠ NO_ERROR →
      (WritePipeWrite ws input e).code = .invalidFile ∧
      (WritePipeWrite ws input e).sysError = e ∧
      (WritePipeWrite ws input e).state.opExecuting = false ∧
      (WritePipeWrite (WritePipeWrite ws input e).state input e2).code ≠
        .stillExecuting) := by
  refine ⟨fun hv hx => ?_, fun hx => ?_, fun hv hx h1 h2 => ⟨?_, ?_⟩,
    fun hv hx h1 h2 => ?_⟩
  · simp [ReadPipeRead, hv, hx]
  · simp [WritePipeWrite, hx]
  · simp [ReadPipeRead, hv, hx, h1, h2]
  · simp only [ReadPipeRead]
    split_ifs <;> simp_all
  · have hcond : ¬(e = ERROR_IO_PENDING ∨ e = NO_ERROR) := by tauto
    have hne : ∀ (s : WritePipeState) (inp : List ℕ) (e3 : ℕ),
        s.opExecuting = false →
        (WritePipeWrite s inp e3).code ≠ .stillExecuting := by
      intro s inp e3 h
      unfold WritePipeWrite
      rw [if_neg (by simp [h])]
      split_ifs <;> simp
    refine ⟨?_, ?_, ?_, hne _ _ _ ?_⟩ <;>
      · unfold WritePipeWrite
        rw [if_neg (by simp [hx]), if_neg (by simp [hv]), if_neg hcond]

/-- Witness for C8_theorem at a concrete input. -/
theorem C8_witness :
    ReadPipeRead ⟨true, true, false, [], 0⟩ 5 =
      (.stillExecuting, NO_ERROR, ⟨true, true, false, [], 0⟩) :=
  (C8_theorem ⟨true, true, false, [], 0⟩ ⟨true, false, []⟩ [] 5 0).1 rfl rfl

/-- Claim C10 (implicit): a successful `Write(buffer)` on a valid, idle write
pipe whose internal buffer has the configured size (64 B) always submits
exactly the full 64-byte internal buffer to the device: the caller's bytes
followed by zero padding, because the internal buffer is zero-filled before the
copy. -/
theorem C10_theorem (ws : WritePipeState) (input : List ℕ) (e : ℕ)
    (hv : ws.valid = true) (hx : ws.opExecuting = false)
    (hlen : ws.buffer.length = k_pipeParams.writeBufferSize)
    (hin : input.length ≤ 64)
    (he : e = NO_ERROR ∨ e = ERROR_IO_PENDING) :
    WritePipeWrite ws input e =
      ⟨.success, NO_ERROR, some (input ++ List.replicate (64 - input.length) 0),
        { ws with buffer := input ++ List.replicate (64 - input.length) 0,
                  opExecuting := true }⟩ ∧
    (input ++ List.replicate (64 - input.length) 0).length = 64 ∧
    (input ++ List.replicate (64 - input.length) 0).take input.length =
      input ∧
    (∀ i, input.length ≤ i →
      (input ++ List.replicate (64 - input.length) 0).getD i 0 = 0) := by
  have hb : ws.buffer.length = 64 := hlen
  have htake : input.take 64 = input := List.take_of_length_le hin
  refine ⟨?_, by simp; omega, by simp, fun i hi => ?_⟩
  · unfold WritePipeWrite
    rw [if_neg (by simp [hx]), if_neg (by simp [hv]), if_pos (by tauto), hb,
      htake]
  · rcases Nat.lt_or_ge i 64 with hlt | hge
    · have : i - input.length < 64 - input.length := by omega
      simp [List.getD, List.getElem?_append_right hi, List.getElem?_replicate,
        this]
    · have : (input ++ List.replicate (64 - input.length) 0).length ≤ i := by
        simp
        omega
      simp [List.getD, List.getElem?_eq_none this]

/-- Witness for C10_theorem at a concrete input. -/
theorem C10_witness :
    (WritePipeWrite ⟨true, false, List.replicate 64 9⟩ [0x80, 0x02]
        NO_ERROR).submitted =
      some ([0x80, 0x02] ++ List.replicate 62 0) :=
  congrArg WriteOutcome.submitted
    (C10_theorem ⟨true, false, List.replicate 64 9⟩ [0x80, 0x02] NO_ERROR rfl
      rfl (by decide) (by decide) (Or.inl rfl)).1

/-- Claim C6: in one `TryUpdate` tick, reattach is attempted at most once; and
when the drain returns `StillExecuting` (which presupposes the tick got past
the entry check: a valid handle or a successful entry reattach), the tick
returns true and closes nothing if `now - cached.timestamp ≤ 100` ms, whereas
if `now - cached.timestamp > 100` ms it closes the pipes, performs exactly one
reattach attempt over the whole tick, and returns false. -/
theorem C6_theorem (env : TickEnv) :
    (TryUpdate env).reattachAttempts ≤ 1 ∧
    (env.fileValid = true ∨ env.reattachResult = true →
      env.popResult = .stillExecuting →
      (sub64 env.now env.cachedTimestamp ≤ 100 →
        (TryUpdate env).ret = true ∧ (TryUpdate env).pipesClosed = false) ∧
      (100 < sub64 env.now env.cachedTimestamp →
        (TryUpdate env).ret = false ∧ (TryUpdate env).pipesClosed = true ∧
        (TryUpdate env).reattachAttempts = 1)) := by
  rcases env with ⟨fv, rr, pop, rd, pf, now, ts⟩
  by_cases hd : 100 < sub64 now ts <;>
    cases fv <;> cases rr <;> cases pop <;> cases rd <;>
      simp_all [TryUpdate, tryUpdateAfterPop, k_packetTimeout] <;>
      (try split_ifs) <;> simp_all <;> (try omega)

/-- Witness for C6_theorem at a concrete input. -/
theorem C6_witness :
    (TryUpdate ⟨true, true, .stillExecuting, .success, false, 200, 0⟩).ret =
      false ∧
    (TryUpdate ⟨true, true, .stillExecuting, .success, false, 200,
      0⟩).pipesClosed = true ∧
    (TryUpdate ⟨true, true, .stillExecuting, .success, false, 200,
      0⟩).reattachAttempts = 1 :=
  ((C6_theorem ⟨true, true, .stillExecuting, .success, false, 200, 0⟩).2
    (Or.inl rfl) rfl).2 (by decide)


/-- `IsSet v i` agrees with `Nat.testBit`. -/
lemma isSet_eq_testBit (v i : ℕ) : IsSet v i = v.testBit i := by
  simp only [IsSet, Nat.testBit_to_div_mod, Nat.shiftRight_eq_div_pow,
    Nat.and_one_is_mod]
  by_cases h : v / 2 ^ i % 2 = 1 <;> simp [h]

/-- `testBit` through the conditional summands of the `wButtons` chain. -/
lemma testBit_ite (b : Bool) (K j : ℕ) :
    (if b then K else 0).testBit j = (b && K.testBit j) := by
  cases b <;> simp

/-- Bit `j` of the accumulated `wButtons` word, as a disjunction over the
fourteen mapped buttons. -/
lemma wButtonsOf_testBit (keys j : ℕ) :
    (wButtonsOf keys).testBit j =
      ((keys.testBit 0 && Nat.testBit (2 ^ 14) j) ||
       (keys.testBit 1 && Nat.testBit (2 ^ 15) j) ||
       (keys.testBit 2 && Nat.testBit (2 ^ 12) j) ||
       (keys.testBit 3 && Nat.testBit (2 ^ 13) j) ||
       (keys.testBit 6 && Nat.testBit (2 ^ 9) j) ||
       (keys.testBit 8 && Nat.testBit (2 ^ 5) j) ||
       (keys.testBit 9 && Nat.testBit (2 ^ 4) j) ||
       (keys.testBit 10 && Nat.testBit (2 ^ 7) j) ||
       (keys.testBit 11 && Nat.testBit (2 ^ 6) j) ||
       (keys.testBit 16 && Nat.testBit (2 ^ 1) j) ||
       (keys.testBit 17 && Nat.testBit (2 ^ 0) j) ||
       (keys.testBit 18 && Nat.testBit (2 ^ 3) j) ||
       (keys.testBit 19 && Nat.testBit (2 ^ 2) j) ||
       (keys.testBit 22 && Nat.testBit (2 ^ 8) j)) := by
  unfold wButtonsOf
  simp only [isSet_eq_testBit, Nat.testBit_lor, testBit_ite,
    Buttons_Y, Buttons_X, Buttons_B, Buttons_A, Buttons_R, Buttons_Minus,
    Buttons_Plus, Buttons_TriggerR, Buttons_TriggerL, Buttons_Down, Buttons_Up,
    Buttons_Right, Buttons_Left, Buttons_L,
    XINPUT_GAMEPAD_X, XINPUT_GAMEPAD_Y, XINPUT_GAMEPAD_A, XINPUT_GAMEPAD_B,
    XINPUT_GAMEPAD_RIGHT_SHOULDER, XINPUT_GAMEPAD_BACK, XINPUT_GAMEPAD_START,
    XINPUT_GAMEPAD_RIGHT_THUMB, XINPUT_GAMEPAD_LEFT_THUMB,
    XINPUT_GAMEPAD_DPAD_DOWN, XINPUT_GAMEPAD_DPAD_UP, XINPUT_GAMEPAD_DPAD_RIGHT,
    XINPUT_GAMEPAD_DPAD_LEFT, XINPUT_GAMEPAD_LEFT_SHOULDER]
  norm_num

/-- Unmapped and unlisted bits never appear in `wButtons`. -/
lemma wButtonsOf_unlisted (keys j : ℕ)
    (hj : j ∉ ([0, 1, 2, 3, 4, 5, 6, 7, 8, 9, 12, 13, 14, 15] : List ℕ)) :
    (wButtonsOf keys).testBit j = false := by
  simp only [List.mem_cons, List.not_mem_nil, or_false] at hj
  push_neg at hj
  rw [wButtonsOf_testBit]
  simp only [Nat.testBit_two_pow]
  simp only [decide_eq_false (by omega : ¬(14 = j)),
    decide_eq_false (by omega : ¬(15 = j)),
    decide_eq_false (by omega : ¬(12 = j)),
    decide_eq_false (by omega : ¬(13 = j)),
    decide_eq_false (by omega : ¬(9 = j)),
    decide_eq_false (by omega : ¬(5 = j)),
    decide_eq_false (by omega : ¬(4 = j)),
    decide_eq_false (by omega : ¬(7 = j)),
    decide_eq_false (by omega : ¬(6 = j)),
    decide_eq_false (by omega : ¬(1 = j)),
    decide_eq_false (by omega : ¬(0 = j)),
    decide_eq_false (by omega : ¬(3 = j)),
    decide_eq_false (by omega : ¬(2 = j)),
    decide_eq_false (by omega : ¬(8 = j))]
  simp

/-- `wButtons` depends on `keys` only through the fourteen mapped bits
(mask 0x4F0F4F). -/
lemma wButtonsOf_congr (k1 k2 : ℕ)
    (h : k1 &&& 0x4F0F4F = k2 &&& 0x4F0F4F) : wButtonsOf k1 = wButtonsOf k2 := by
  have hb : ∀ b : ℕ, Nat.testBit 0x4F0F4F b = true →
      k1.testBit b = k2.testBit b := by
    intro b hbb
    have h2 := congrArg (fun x => x.testBit b) h
    simpa [Nat.testBit_land, hbb] using h2
  unfold wButtonsOf
  simp only [isSet_eq_testBit, Buttons_Y, Buttons_X, Buttons_B, Buttons_A,
    Buttons_R, Buttons_Minus, Buttons_Plus, Buttons_TriggerR, Buttons_TriggerL,
    Buttons_Down, Buttons_Up, Buttons_Right, Buttons_Left, Buttons_L]
  rw [hb 0 (by decide), hb 1 (by decide), hb 2 (by decide), hb 3 (by decide),
    hb 6 (by decide), hb 8 (by decide), hb 9 (by decide), hb 10 (by decide),
    hb 11 (by decide), hb 16 (by decide), hb 17 (by decide), hb 18 (by decide),
    hb 19 (by decide), hb 22 (by decide)]

/-- Claim C2: for every full-states payload, each mapped Pro button bit sets
exactly its XInput counterpart (bit positions of the XINPUT_GAMEPAD constants:
X=14, Y=15, A=12, B=13, right-shoulder=9, back=5, start=4, right-thumb=7,
left-thumb=6, dpad-down=1, dpad-up=0, dpad-right=3, dpad-left=2,
left-shoulder=8); the triggers are 0xFF exactly when ZL (bit 23) resp. ZR
(bit 7) is set; no other XInput bit is ever set; and `wButtons` depends on
`keys` only through the fourteen mapped bits (so Home, Share, ZL, ZR and the
unmapped bits contribute nothing). -/
theorem C2_theorem (fs gs : FullStates)
    (hmask : fs.keys.toUInt32 &&& 0x4F0F4F = gs.keys.toUInt32 &&& 0x4F0F4F) :
    ((Translate fs).1.wButtons.testBit 14 = fs.keys.toUInt32.testBit Buttons_Y) ∧
    ((Translate fs).1.wButtons.testBit 15 = fs.keys.toUInt32.testBit Buttons_X) ∧
    ((Translate fs).1.wButtons.testBit 12 = fs.keys.toUInt32.testBit Buttons_B) ∧
    ((Translate fs).1.wButtons.testBit 13 = fs.keys.toUInt32.testBit Buttons_A) ∧
    ((Translate fs).1.wButtons.testBit 9 = fs.keys.toUInt32.testBit Buttons_R) ∧
    ((Translate fs).1.wButtons.testBit 5 =
      fs.keys.toUInt32.testBit Buttons_Minus) ∧
    ((Translate fs).1.wButtons.testBit 4 =
      fs.keys.toUInt32.testBit Buttons_Plus) ∧
    ((Translate fs).1.wButtons.testBit 7 =
      fs.keys.toUInt32.testBit Buttons_TriggerR) ∧
    ((Translate fs).1.wButtons.testBit 6 =
      fs.keys.toUInt32.testBit Buttons_TriggerL) ∧
    ((Translate fs).1.wButtons.testBit 1 =
      fs.keys.toUInt32.testBit Buttons_Down) ∧
    ((Translate fs).1.wButtons.testBit 0 = fs.keys.toUInt32.testBit Buttons_Up) ∧
    ((Translate fs).1.wButtons.testBit 3 =
      fs.keys.toUInt32.testBit Buttons_Right) ∧
    ((Translate fs).1.wButtons.testBit 2 =
      fs.keys.toUInt32.testBit Buttons_Left) ∧
    ((Translate fs).1.wButtons.testBit 8 = fs.keys.toUInt32.testBit Buttons_L) ∧
    ((Translate fs).1.bLeftTrigger =
      if fs.keys.toUInt32.testBit Buttons_ZL then 0xFF else 0) ∧
    ((Translate fs).1.bRightTrigger =
      if fs.keys.toUInt32.testBit Buttons_ZR then 0xFF else 0) ∧
    (∀ j, j ∉ ([0, 1, 2, 3, 4, 5, 6, 7, 8, 9, 12, 13, 14, 15] : List ℕ) →
      (Translate fs).1.wButtons.testBit j = false) ∧
    (Translate fs).1.wButtons = (Translate gs).1.wButtons := by
  have hw : (Translate fs).1.wButtons = wButtonsOf fs.keys.toUInt32 := rfl
  have hw2 : (Translate gs).1.wButtons = wButtonsOf gs.keys.toUInt32 := rfl
  refine ⟨?_, ?_, ?_, ?_, ?_, ?_, ?_, ?_, ?_, ?_, ?_, ?_, ?_, ?_, ?_, ?_,
    ?_, ?_⟩
  · rw [hw, wButtonsOf_testBit]
    simp only [Buttons_Y,
      (by decide : Nat.testBit (2 ^ 14) 14 = true),
      (by decide : Nat.testBit (2 ^ 15) 14 = false),
      (by decide : Nat.testBit (2 ^ 12) 14 = false),
      (by decide : Nat.testBit (2 ^ 13) 14 = false),
      (by decide : Nat.testBit (2 ^ 9) 14 = false),
      (by decide : Nat.testBit (2 ^ 5) 14 = false),
      (by decide : Nat.testBit (2 ^ 4) 14 = false),
      (by decide : Nat.testBit (2 ^ 7) 14 = false),
      (by decide : Nat.testBit (2 ^ 6) 14 = false),
      (by decide : Nat.testBit (2 ^ 1) 14 = false),
      (by decide : Nat.testBit (2 ^ 0) 14 = false),
      (by decide : Nat.testBit (2 ^ 3) 14 = false),
      (by decide : Nat.testBit (2 ^ 2) 14 = false),
      (by decide : Nat.testBit (2 ^ 8) 14 = false)]
    simp
  · rw [hw, wButtonsOf_testBit]
    simp only [Buttons_X,
      (by decide : Nat.testBit (2 ^ 14) 15 = false),
      (by decide : Nat.testBit (2 ^ 15) 15 = true),
      (by decide : Nat.testBit (2 ^ 12) 15 = false),
      (by decide : Nat.testBit (2 ^ 13) 15 = false),
      (by decide : Nat.testBit (2 ^ 9) 15 = false),
      (by decide : Nat.testBit (2 ^ 5) 15 = false),
      (by decide : Nat.testBit (2 ^ 4) 15 = false),
      (by decide : Nat.testBit (2 ^ 7) 15 = false),
      (by decide : Nat.testBit (2 ^ 6) 15 = false),
      (by decide : Nat.testBit (2 ^ 1) 15 = false),
      (by decide : Nat.testBit (2 ^ 0) 15 = false),
      (by decide : Nat.testBit (2 ^ 3) 15 = false),
      (by decide : Nat.testBit (2 ^ 2) 15 = false),
      (by decide : Nat.testBit (2 ^ 8) 15 = false)]
    simp
  · rw [hw, wButtonsOf_testBit]
    simp only [Buttons_B,
      (by decide : Nat.testBit (2 ^ 14) 12 = false),
      (by decide : Nat.testBit (2 ^ 15) 12 = false),
      (by decide : Nat.testBit (2 ^ 12) 12 = true),
      (by decide : Nat.testBit (2 ^ 13) 12 = false),
      (by decide : Nat.testBit (2 ^ 9) 12 = false),
      (by decide : Nat.testBit (2 ^ 5) 12 = false),
      (by decide : Nat.testBit (2 ^ 4) 12 = false),
      (by decide : Nat.testBit (2 ^ 7) 12 = false),
      (by decide : Nat.testBit (2 ^ 6) 12 = false),
      (by decide : Nat.testBit (2 ^ 1) 12 = false),
      (by decide : Nat.testBit (2 ^ 0) 12 = false),
      (by decide : Nat.testBit (2 ^ 3) 12 = false),
      (by decide : Nat.testBit (2 ^ 2) 12 = false),
      (by decide : Nat.testBit (2 ^ 8) 12 = false)]
    simp
  · rw [hw, wButtonsOf_testBit]
    simp only [Buttons_A,
      (by decide : Nat.testBit (2 ^ 14) 13 = false),
      (by decide : Nat.testBit (2 ^ 15) 13 = false),
      (by decide : Nat.testBit (2 ^ 12) 13 = false),
      (by decide : Nat.testBit (2 ^ 13) 13 = true),
      (by decide : Nat.testBit (2 ^ 9) 13 = false),
      (by decide : Nat.testBit (2 ^ 5) 13 = false),
      (by decide : Nat.testBit (2 ^ 4) 13 = false),
      (by decide : Nat.testBit (2 ^ 7) 13 = false),
      (by decide : Nat.testBit (2 ^ 6) 13 = false),
      (by decide : Nat.testBit (2 ^ 1) 13 = false),
      (by decide : Nat.testBit (2 ^ 0) 13 = false),
      (by decide : Nat.testBit (2 ^ 3) 13 = false),
      (by decide : Nat.testBit (2 ^ 2) 13 = false),
      (by decide : Nat.testBit (2 ^ 8) 13 = false)]
    simp
  · rw [hw, wButtonsOf_testBit]
    simp only [Buttons_R,
      (by decide : Nat.testBit (2 ^ 14) 9 = false),
      (by decide : Nat.testBit (2 ^ 15) 9 = false),
      (by decide : Nat.testBit (2 ^ 12) 9 = false),
      (by decide : Nat.testBit (2 ^ 13) 9 = false),
      (by decide : Nat.testBit (2 ^ 9) 9 = true),
      (by decide : Nat.testBit (2 ^ 5) 9 = false),
      (by decide : Nat.testBit (2 ^ 4) 9 = false),
      (by decide : Nat.testBit (2 ^ 7) 9 = false),
      (by decide : Nat.testBit (2 ^ 6) 9 = false),
      (by decide : Nat.testBit (2 ^ 1) 9 = false),
      (by decide : Nat.testBit (2 ^ 0) 9 = false),
      (by decide : Nat.testBit (2 ^ 3) 9 = false),
      (by decide : Nat.testBit (2 ^ 2) 9 = false),
      (by decide : Nat.testBit (2 ^ 8) 9 = false)]
    simp
  · rw [hw, wButtonsOf_testBit]
    simp only [Buttons_Minus,
      (by decide : Nat.testBit (2 ^ 14) 5 = false),
      (by decide : Nat.testBit (2 ^ 15) 5 = false),
      (by decide : Nat.testBit (2 ^ 12) 5 = false),
      (by decide : Nat.testBit (2 ^ 13) 5 = false),
      (by decide : Nat.testBit (2 ^ 9) 5 = false),
      (by decide : Nat.testBit (2 ^ 5) 5 = true),
      (by decide : Nat.testBit (2 ^ 4) 5 = false),
      (by decide : Nat.testBit (2 ^ 7) 5 = false),
      (by decide : Nat.testBit (2 ^ 6) 5 = false),
      (by decide : Nat.testBit (2 ^ 1) 5 = false),
      (by decide : Nat.testBit (2 ^ 0) 5 = false),
      (by decide : Nat.testBit (2 ^ 3) 5 = false),
      (by decide : Nat.testBit (2 ^ 2) 5 = false),
      (by decide : Nat.testBit (2 ^ 8) 5 = false)]
    simp
  · rw [hw, wButtonsOf_testBit]
    simp only [Buttons_Plus,
      (by decide : Nat.testBit (2 ^ 14) 4 = false),
      (by decide : Nat.testBit (2 ^ 15) 4 = false),
      (by decide : Nat.testBit (2 ^ 12) 4 = false),
      (by decide : Nat.testBit (2 ^ 13) 4 = false),
      (by decide : Nat.testBit (2 ^ 9) 4 = false),
      (by decide : Nat.testBit (2 ^ 5) 4 = false),
      (by decide : Nat.testBit (2 ^ 4) 4 = true),
      (by decide : Nat.testBit (2 ^ 7) 4 = false),
      (by decide : Nat.testBit (2 ^ 6) 4 = false),
      (by decide : Nat.testBit (2 ^ 1) 4 = false),
      (by decide : Nat.testBit (2 ^ 0) 4 = false),
      (by decide : Nat.testBit (2 ^ 3) 4 = false),
      (by decide : Nat.testBit (2 ^ 2) 4 = false),
      (by decide : Nat.testBit (2 ^ 8) 4 = false)]
    simp
  · rw [hw, wButtonsOf_testBit]
    simp only [Buttons_TriggerR,
      (by decide : Nat.testBit (2 ^ 14) 7 = false),
      (by decide : Nat.testBit (2 ^ 15) 7 = false),
      (by decide : Nat.testBit (2 ^ 12) 7 = false),
      (by decide : Nat.testBit (2 ^ 13) 7 = false),
      (by decide : Nat.testBit (2 ^ 9) 7 = false),
      (by decide : Nat.testBit (2 ^ 5) 7 = false),
      (by decide : Nat.testBit (2 ^ 4) 7 = false),
      (by decide : Nat.testBit (2 ^ 7) 7 = true),
      (by decide : Nat.testBit (2 ^ 6) 7 = false),
      (by decide : Nat.testBit (2 ^ 1) 7 = false),
      (by decide : Nat.testBit (2 ^ 0) 7 = false),
      (by decide : Nat.testBit (2 ^ 3) 7 = false),
      (by decide : Nat.testBit (2 ^ 2) 7 = false),
      (by decide : Nat.testBit (2 ^ 8) 7 = false)]
    simp
  · rw [hw, wButtonsOf_testBit]
    simp only [Buttons_TriggerL,
      (by decide : Nat.testBit (2 ^ 14) 6 = false),
      (by decide : Nat.testBit (2 ^ 15) 6 = false),
      (by decide : Nat.testBit (2 ^ 12) 6 = false),
      (by decide : Nat.testBit (2 ^ 13) 6 = false),
      (by decide : Nat.testBit (2 ^ 9) 6 = false),
      (by decide : Nat.testBit (2 ^ 5) 6 = false),
      (by decide : Nat.testBit (2 ^ 4) 6 = false),
      (by decide : Nat.testBit (2 ^ 7) 6 = false),
      (by decide : Nat.testBit (2 ^ 6) 6 = true),
      (by decide : Nat.testBit (2 ^ 1) 6 = false),
      (by decide : Nat.testBit (2 ^ 0) 6 = false),
      (by decide : Nat.testBit (2 ^ 3) 6 = false),
      (by decide : Nat.testBit (2 ^ 2) 6 = false),
      (by decide : Nat.testBit (2 ^ 8) 6 = false)]
    simp
  · rw [hw, wButtonsOf_testBit]
    simp only [Buttons_Down,
      (by decide : Nat.testBit (2 ^ 14) 1 = false),
      (by decide : Nat.testBit (2 ^ 15) 1 = false),
      (by decide : Nat.testBit (2 ^ 12) 1 = false),
      (by decide : Nat.testBit (2 ^ 13) 1 = false),
      (by decide : Nat.testBit (2 ^ 9) 1 = false),
      (by decide : Nat.testBit (2 ^ 5) 1 = false),
      (by decide : Nat.testBit (2 ^ 4) 1 = false),
      (by decide : Nat.testBit (2 ^ 7) 1 = false),
      (by decide : Nat.testBit (2 ^ 6) 1 = false),
      (by decide : Nat.testBit (2 ^ 1) 1 = true),
      (by decide : Nat.testBit (2 ^ 0) 1 = false),
      (by decide : Nat.testBit (2 ^ 3) 1 = false),
      (by decide : Nat.testBit (2 ^ 2) 1 = false),
      (by decide : Nat.testBit (2 ^ 8) 1 = false)]
    simp
  · rw [hw, wButtonsOf_testBit]
    simp only [Buttons_Up,
      (by decide : Nat.testBit (2 ^ 14) 0 = false),
      (by decide : Nat.testBit (2 ^ 15) 0 = false),
      (by decide : Nat.testBit (2 ^ 12) 0 = false),
      (by decide : Nat.testBit (2 ^ 13) 0 = false),
      (by decide : Nat.testBit (2 ^ 9) 0 = false),
      (by decide : Nat.testBit (2 ^ 5) 0 = false),
      (by decide : Nat.testBit (2 ^ 4) 0 = false),
      (by decide : Nat.testBit (2 ^ 7) 0 = false),
      (by decide : Nat.testBit (2 ^ 6) 0 = false),
      (by decide : Nat.testBit (2 ^ 1) 0 = false),
      (by decide : Nat.testBit (2 ^ 0) 0 = true),
      (by decide : Nat.testBit (2 ^ 3) 0 = false),
      (by decide : Nat.testBit (2 ^ 2) 0 = false),
      (by decide : Nat.testBit (2 ^ 8) 0 = false)]
    simp
  · rw [hw, wButtonsOf_testBit]
    simp only [Buttons_Right,
      (by decide : Nat.testBit (2 ^ 14) 3 = false),
      (by decide : Nat.testBit (2 ^ 15) 3 = false),
      (by decide : Nat.testBit (2 ^ 12) 3 = false),
      (by decide : Nat.testBit (2 ^ 13) 3 = false),
      (by decide : Nat.testBit (2 ^ 9) 3 = false),
      (by decide : Nat.testBit (2 ^ 5) 3 = false),
      (by decide : Nat.testBit (2 ^ 4) 3 = false),
      (by decide : Nat.testBit (2 ^ 7) 3 = false),
      (by decide : Nat.testBit (2 ^ 6) 3 = false),
      (by decide : Nat.testBit (2 ^ 1) 3 = false),
      (by decide : Nat.testBit (2 ^ 0) 3 = false),
      (by decide : Nat.testBit (2 ^ 3) 3 = true),
      (by decide : Nat.testBit (2 ^ 2) 3 = false),
      (by decide : Nat.testBit (2 ^ 8) 3 = false)]
    simp
  · rw [hw, wButtonsOf_testBit]
    simp only [Buttons_Left,
      (by decide : Nat.testBit (2 ^ 14) 2 = false),
      (by decide : Nat.testBit (2 ^ 15) 2 = false),
      (by decide : Nat.testBit (2 ^ 12) 2 = false),
      (by decide : Nat.testBit (2 ^ 13) 2 = false),
      (by decide : Nat.testBit (2 ^ 9) 2 = false),
      (by decide : Nat.testBit (2 ^ 5) 2 = false),
      (by decide : Nat.testBit (2 ^ 4) 2 = false),
      (by decide : Nat.testBit (2 ^ 7) 2 = false),
      (by decide : Nat.testBit (2 ^ 6) 2 = false),
      (by decide : Nat.testBit (2 ^ 1) 2 = false),
      (by decide : Nat.testBit (2 ^ 0) 2 = false),
      (by decide : Nat.testBit (2 ^ 3) 2 = false),
      (by decide : Nat.testBit (2 ^ 2) 2 = true),
      (by decide : Nat.testBit (2 ^ 8) 2 = false)]
    simp
  · rw [hw, wButtonsOf_testBit]
    simp only [Buttons_L,
      (by decide : Nat.testBit (2 ^ 14) 8 = false),
      (by decide : Nat.testBit (2 ^ 15) 8 = false),
      (by decide : Nat.testBit (2 ^ 12) 8 = false),
      (by decide : Nat.testBit (2 ^ 13) 8 = false),
      (by decide : Nat.testBit (2 ^ 9) 8 = false),
      (by decide : Nat.testBit (2 ^ 5) 8 = false),
      (by decide : Nat.testBit (2 ^ 4) 8 = false),
      (by decide : Nat.testBit (2 ^ 7) 8 = false),
      (by decide : Nat.testBit (2 ^ 6) 8 = false),
      (by decide : Nat.testBit (2 ^ 1) 8 = false),
      (by decide : Nat.testBit (2 ^ 0) 8 = false),
      (by decide : Nat.testBit (2 ^ 3) 8 = false),
      (by decide : Nat.testBit (2 ^ 2) 8 = false),
      (by decide : Nat.testBit (2 ^ 8) 8 = true)]
    simp
  · simp only [Translate, isSet_eq_testBit]
  · simp only [Translate, isSet_eq_testBit]
  · intro j hj
    rw [hw]
    exact wButtonsOf_unlisted _ j hj
  · rw [hw, hw2]
    exact wButtonsOf_congr _ _ hmask

/-- Witness for C2_theorem at a concrete input. -/
theorem C2_witness :
    (Translate (parseFullStates c1Packet)).1.wButtons =
      (Translate (parseFullStates c1PacketAmended)).1.wButtons :=
  (C2_theorem (parseFullStates c1Packet) (parseFullStates c1PacketAmended)
    (by decide)).2.2.2.2.2.2.2.2.2.2.2.2.2.2.2.2.2


/-- For values below `2^15` the `int16_t` cast is the identity. -/
lemma toInt16_eq (v : ℕ) (hv : v < 32768) : toInt16 v = (v : ℤ) := by
  unfold toInt16
  rw [if_pos (by omega : v % 65536 < 32768)]
  omega

/-- Claim C3, counterexample: at raw value 0x7E2 on the left-X axis the code
truncates the single-precision product to 40, while the spec's formula
`round(s * 0x7FFF / (max - neutral))` = `round(2 * 32767 / 1600)` =
`round(40.95875)` gives 41. -/
theorem C3_counterexample :
    RemapAxis RamapConfigLeftX 0x7E2 = 40 ∧
    specRemapRound RamapConfigLeftX 0x7E2 = 41 := by
  exact ⟨by decide, by decide⟩

/-- Claim C3 as amended: for each of the four axes and every raw 12-bit value,
the output equals the spec's clamp-and-offset formula with the quotient
evaluated the way the code evaluates it — in single-precision float arithmetic
as `s · fl(1/range) · scale` (scale 0x7FFF above neutral, 0x8000 below) — and
truncated toward zero, instead of rounded to the nearest integer. -/
theorem C3_amended (cfg : RemapConfig)
    (hc : cfg = RamapConfigLeftX ∨ cfg = RamapConfigLeftY ∨
      cfg = RamapConfigRightX ∨ cfg = RamapConfigRightY)
    (v : ℕ) (hv : v < 4096) :
    RemapAxis cfg v = specRemapFloat cfg v := by
  have hspec : specRemapFloat cfg v =
      RemapAxisSigned cfg (min cfg.maxV (max cfg.minV (v : ℤ)) - cfg.neutral) :=
    rfl
  rw [hspec]
  unfold RemapAxis
  rw [toInt16_eq v (by omega)]
  have hv2 : (v : ℤ) < 4096 := by exact_mod_cast hv
  congr 1
  rcases hc with rfl | rfl | rfl | rfl <;>
    · simp only [RamapConfigLeftX, RamapConfigLeftY, RamapConfigRightX,
        RamapConfigRightY, Int.max_def, Int.min_def]
      split_ifs <;> omega

/-- Witness for C3_amended at a concrete input. -/
theorem C3_amended_witness :
    RemapAxis RamapConfigLeftX 0x700 = specRemapFloat RamapConfigLeftX 0x700 :=
  C3_amended RamapConfigLeftX (Or.inl rfl) 0x700 (by decide)


/-! ### Correctness of the rounding primitives (toward claim C4) -/

lemma log2Fuel_spec : ∀ fuel n : ℕ, 1 ≤ n → n ≤ 2 ^ fuel →
    2 ^ log2Fuel fuel n ≤ n ∧ n < 2 ^ (log2Fuel fuel n + 1) := by
  intro fuel
  induction fuel with
  | zero =>
    intro n h1 h2
    simp only [log2Fuel, pow_zero] at *
    omega
  | succ f ih =>
    intro n h1 h2
    unfold log2Fuel
    by_cases h : 2 ≤ n
    · rw [if_pos h]
      have hb : n / 2 ≤ 2 ^ f := by
        rw [pow_succ] at h2
        omega
      obtain ⟨ha, hb'⟩ := ih (n / 2) (by omega) hb
      rw [pow_succ] at hb' ⊢
      rw [pow_succ]
      constructor <;> omega
    · rw [if_neg h]
      simp only [pow_zero, pow_one]
      omega

lemma natLog2_spec (n : ℕ) (h : 1 ≤ n) :
    2 ^ natLog2 n ≤ n ∧ n < 2 ^ (natLog2 n + 1) :=
  log2Fuel_spec n n h (Nat.le_of_lt (Nat.lt_two_pow n))

lemma natLog2_le_of_lt (m k : ℕ) (h1 : 1 ≤ m) (h2 : m < 2 ^ (k + 1)) :
    natLog2 m ≤ k := by
  obtain ⟨ha, _⟩ := natLog2_spec m h1
  by_contra hc
  push_neg at hc
  have : 2 ^ (k + 1) ≤ 2 ^ natLog2 m := Nat.pow_le_pow_right (by norm_num) (by omega)
  omega

lemma le_natLog2 (m k : ℕ) (h : 2 ^ k ≤ m) : k ≤ natLog2 m := by
  have h1 : 1 ≤ m := le_trans Nat.one_le_two_pow h
  obtain ⟨_, hb⟩ := natLog2_spec m h1
  by_contra hc
  push_neg at hc
  have : 2 ^ (natLog2 m + 1) ≤ 2 ^ k := Nat.pow_le_pow_right (by norm_num) (by omega)
  omega

lemma rneDiv_ge (a b : ℕ) : a / b ≤ rneDiv a b := by
  unfold rneDiv
  split_ifs <;> omega

lemma rneDiv_le (a b : ℕ) : rneDiv a b ≤ a / b + 1 := by
  unfold rneDiv
  split_ifs <;> omega

lemma rneDiv_mono (a1 a2 b : ℕ) (hb : 0 < b) (h : a1 ≤ a2) :
    rneDiv a1 b ≤ rneDiv a2 b := by
  have hq : a1 / b ≤ a2 / b := Nat.div_le_div_right h
  rcases Nat.lt_or_ge (a1 / b) (a2 / b) with hlt | hge
  · calc rneDiv a1 b ≤ a1 / b + 1 := rneDiv_le a1 b
      _ ≤ a2 / b := by omega
      _ ≤ rneDiv a2 b := rneDiv_ge a2 b
  · have hqe : a1 / b = a2 / b := le_antisymm hq hge
    have e1 := Nat.div_add_mod a1 b
    have e2 := Nat.div_add_mod a2 b
    have hr : a1 % b ≤ a2 % b := by
      rw [hqe] at e1
      omega
    unfold rneDiv
    rw [hqe]
    split_ifs <;> omega

lemma rneDiv_mul_mul (a b c : ℕ) (hc : 0 < c) :
    rneDiv (c * a) (c * b) = rneDiv a b := by
  unfold rneDiv
  rw [Nat.mul_div_mul_left a b hc, Nat.mul_mod_mul_left]
  have e1 : 2 * (c * (a % b)) = c * (2 * (a % b)) := by ring
  rw [e1]
  simp only [mul_lt_mul_left hc]

lemma mantOf_lower (m : ℕ) (hm : 0 < m) : 2 ^ 23 ≤ mantOf m := by
  obtain ⟨ha, hb⟩ := natLog2_spec m hm
  unfold mantOf
  split_ifs with h
  · have h2 : (2 : ℕ) ^ natLog2 m = 2 ^ 23 * 2 ^ (natLog2 m - 23) := by
      rw [← pow_add]
      congr 1
      omega
    calc (2 : ℕ) ^ 23 = 2 ^ natLog2 m / 2 ^ (natLog2 m - 23) := by
          rw [h2, Nat.mul_div_cancel _ (by positivity)]
      _ ≤ m / 2 ^ (natLog2 m - 23) := Nat.div_le_div_right ha
      _ ≤ rneDiv m (2 ^ (natLog2 m - 23)) := rneDiv_ge _ _
  · calc (2 : ℕ) ^ 23 = 2 ^ natLog2 m * 2 ^ (23 - natLog2 m) := by
          rw [← pow_add]
          congr 1
          omega
      _ ≤ m * 2 ^ (23 - natLog2 m) := mul_le_mul_right' ha _

lemma mantOf_upper (m : ℕ) (hm : 0 < m) : mantOf m ≤ 2 ^ 24 := by
  obtain ⟨ha, hb⟩ := natLog2_spec m hm
  unfold mantOf
  split_ifs with h
  · have h1 : m / 2 ^ (natLog2 m - 23) < 2 ^ 24 := by
      rw [Nat.div_lt_iff_lt_mul (by positivity)]
      calc m < 2 ^ (natLog2 m + 1) := hb
        _ = 2 ^ 24 * 2 ^ (natLog2 m - 23) := by
            rw [← pow_add]
            congr 1
            omega
    have := rneDiv_le m (2 ^ (natLog2 m - 23))
    omega
  · have h1 : m * 2 ^ (23 - natLog2 m) < 2 ^ (natLog2 m + 1) * 2 ^ (23 - natLog2 m) :=
      (mul_lt_mul_right (by positivity)).mpr hb
    have h2 : (2 : ℕ) ^ (natLog2 m + 1) * 2 ^ (23 - natLog2 m) = 2 ^ 24 := by
      rw [← pow_add]
      congr 1
      omega
    omega

lemma mantOf_eq_rneDiv (m : ℕ) (hm : 0 < m) :
    mantOf m = rneDiv (m * 2 ^ 23) (2 ^ natLog2 m) := by
  unfold mantOf
  split_ifs with h
  · have e : (2 : ℕ) ^ natLog2 m = 2 ^ 23 * 2 ^ (natLog2 m - 23) := by
      rw [← pow_add]
      congr 1
      omega
    calc rneDiv m (2 ^ (natLog2 m - 23))
        = rneDiv (2 ^ 23 * m) (2 ^ 23 * 2 ^ (natLog2 m - 23)) :=
          (rneDiv_mul_mul m (2 ^ (natLog2 m - 23)) (2 ^ 23) (by positivity)).symm
      _ = rneDiv (m * 2 ^ 23) (2 ^ natLog2 m) := by rw [mul_comm ((2:ℕ) ^ 23) m, e]
  · have e : m * 2 ^ 23 = m * 2 ^ (23 - natLog2 m) * 2 ^ natLog2 m := by
      rw [mul_assoc, ← pow_add]
      congr 2
      omega
    rw [e]
    unfold rneDiv
    rw [Nat.mul_div_cancel _ (by positivity), Nat.mul_mod_left]
    rw [if_pos (by positivity)]


/-- Core monotonicity of significand rounding, in cross-multiplied form:
if `mx / 2^ex ≤ my / 2^ey` (as exact values) then the rounded values, expressed
over the common denominator, stay ordered. -/
lemma mant_scaled_mono (mx my ex ey : ℕ) (hmx : 0 < mx) (hmy : 0 < my)
    (hlex : natLog2 mx ≤ ex + 23) (hley : natLog2 my ≤ ey + 23)
    (h : mx * 2 ^ ey ≤ my * 2 ^ ex) :
    mantOf mx * 2 ^ (ey + 23 - natLog2 my) ≤
      mantOf my * 2 ^ (ex + 23 - natLog2 mx) := by
  obtain ⟨hax, hbx⟩ := natLog2_spec mx hmx
  obtain ⟨hay, hby⟩ := natLog2_spec my hmy
  rcases Nat.lt_or_ge (natLog2 mx + ey) (natLog2 my + ex) with hlt | hge
  · calc mantOf mx * 2 ^ (ey + 23 - natLog2 my)
        ≤ 2 ^ 24 * 2 ^ (ey + 23 - natLog2 my) :=
          mul_le_mul_right' (mantOf_upper mx hmx) _
      _ = 2 ^ (24 + (ey + 23 - natLog2 my)) := by rw [← pow_add]
      _ ≤ 2 ^ (23 + (ex + 23 - natLog2 mx)) :=
          Nat.pow_le_pow_right (by norm_num) (by omega)
      _ = 2 ^ 23 * 2 ^ (ex + 23 - natLog2 mx) := by rw [← pow_add]
      _ ≤ mantOf my * 2 ^ (ex + 23 - natLog2 mx) :=
          mul_le_mul_right' (mantOf_lower my hmy) _
  · have heq : natLog2 mx + ey = natLog2 my + ex := by
      have h1 : 2 ^ (natLog2 mx + ey) ≤ my * 2 ^ ex :=
        le_trans (by rw [pow_add]; exact mul_le_mul_right' hax _) h
      have h2 : my * 2 ^ ex < 2 ^ (natLog2 my + 1 + ex) := by
        rw [pow_add]
        exact (mul_lt_mul_right (by positivity)).mpr hby
      have h3 : natLog2 mx + ey < natLog2 my + 1 + ex := by
        have h4 := lt_of_le_of_lt h1 h2
        exact (Nat.pow_lt_pow_iff_right (by norm_num)).mp h4
      omega
    have hcross : mx * 2 ^ natLog2 my ≤ my * 2 ^ natLog2 mx := by
      have hh : mx * 2 ^ natLog2 my * 2 ^ ex ≤ my * 2 ^ natLog2 mx * 2 ^ ex := by
        calc mx * 2 ^ natLog2 my * 2 ^ ex
            = mx * 2 ^ ey * 2 ^ natLog2 mx := by
              rw [mul_assoc, mul_assoc, ← pow_add, ← pow_add]
              congr 2
              omega
          _ ≤ my * 2 ^ ex * 2 ^ natLog2 mx := mul_le_mul_right' h _
          _ = my * 2 ^ natLog2 mx * 2 ^ ex := by ring
      exact Nat.le_of_mul_le_mul_right hh (by positivity)
    have hmm : mantOf mx ≤ mantOf my := by
      rw [mantOf_eq_rneDiv mx hmx, mantOf_eq_rneDiv my hmy]
      have e1 : rneDiv (mx * 2 ^ 23) (2 ^ natLog2 mx) =
          rneDiv (2 ^ natLog2 my * (mx * 2 ^ 23))
            (2 ^ natLog2 my * 2 ^ natLog2 mx) :=
        (rneDiv_mul_mul _ _ _ (by positivity)).symm
      have e2 : rneDiv (my * 2 ^ 23) (2 ^ natLog2 my) =
          rneDiv (2 ^ natLog2 mx * (my * 2 ^ 23))
            (2 ^ natLog2 mx * 2 ^ natLog2 my) :=
        (rneDiv_mul_mul _ _ _ (by positivity)).symm
      rw [e1, e2, mul_comm ((2:ℕ) ^ natLog2 my) ((2:ℕ) ^ natLog2 mx)]
      apply rneDiv_mono _ _ _ (by positivity)
      calc 2 ^ natLog2 my * (mx * 2 ^ 23) = mx * 2 ^ natLog2 my * 2 ^ 23 := by ring
        _ ≤ my * 2 ^ natLog2 mx * 2 ^ 23 := mul_le_mul_right' hcross _
        _ = 2 ^ natLog2 mx * (my * 2 ^ 23) := by ring
    have hexp : ey + 23 - natLog2 my = ex + 23 - natLog2 mx := by omega
    rw [hexp]
    exact mul_le_mul_right' hmm _

/-- `fl32` on a positive dyadic that stays below its binade limit keeps the
plain significand/exponent form. -/
lemma fl32_eq_of_pos (x : Dy) (hx : 0 < x.num)
    (hl : natLog2 x.num.natAbs < x.exp + 23) :
    fl32 x = ⟨(mantOf x.num.natAbs : ℤ), x.exp + 23 - natLog2 x.num.natAbs⟩ := by
  simp only [fl32]
  rw [if_neg (by omega), if_neg (by omega : ¬(x.exp + 23 ≤ natLog2 x.num.natAbs)),
    if_neg (by omega : ¬x.num < 0), one_mul]

/-- `fl32` is an odd function (the sign passes through unchanged). -/
lemma fl32_neg (x : Dy) : fl32 ⟨-x.num, x.exp⟩ = ⟨-(fl32 x).num, (fl32 x).exp⟩ := by
  by_cases h0 : x.num = 0
  · simp [fl32, h0]
  · simp only [fl32]
    rw [if_neg (by omega : ¬-x.num = 0), if_neg h0]
    simp only [Int.natAbs_neg]
    rcases lt_or_gt_of_ne h0 with hneg | hpos
    · rw [if_neg (by omega : ¬-x.num < 0), if_pos hneg]
      split_ifs <;> simp [Dy.mk.injEq]
    · rw [if_pos (by omega : -x.num < 0), if_neg (by omega : ¬x.num < 0)]
      split_ifs <;> simp [Dy.mk.injEq]

/-- `fl32` preserves strict positivity of the numerator. -/
lemma fl32_num_pos (x : Dy) (hx : 0 < x.num) : 0 < (fl32 x).num := by
  have hm : 0 < x.num.natAbs := by omega
  have hmant := mantOf_lower _ hm
  simp only [fl32]
  rw [if_neg (by omega), if_neg (by omega : ¬x.num < 0)]
  split_ifs <;>
    · rw [one_mul]
      have : (0:ℕ) < mantOf x.num.natAbs * 2 ^ (natLog2 x.num.natAbs - 23 - x.exp) ∨
          True := Or.inr trivial
      positivity

/-- `fl32` preserves strict negativity of the numerator. -/
lemma fl32_num_neg (x : Dy) (hx : x.num < 0) : (fl32 x).num < 0 := by
  have h1 : fl32 ⟨-(-x.num), x.exp⟩ = ⟨-(fl32 ⟨-x.num, x.exp⟩).num,
      (fl32 ⟨-x.num, x.exp⟩).exp⟩ := fl32_neg ⟨-x.num, x.exp⟩
  rw [neg_neg] at h1
  have h2 : 0 < (fl32 ⟨-x.num, x.exp⟩).num :=
    fl32_num_pos ⟨-x.num, x.exp⟩ (show (0:ℤ) < -x.num by omega)
  calc (fl32 x).num = (fl32 ⟨x.num, x.exp⟩).num := by rfl
    _ = -(fl32 ⟨-x.num, x.exp⟩).num := by rw [h1]
    _ < 0 := by omega

lemma dyTrunc_nonneg (x : Dy) (h : 0 ≤ x.num) : 0 ≤ dyTrunc x := by
  unfold dyTrunc
  rw [if_pos h]
  positivity

lemma dyTrunc_nonpos (x : Dy) (h : x.num ≤ 0) : dyTrunc x ≤ 0 := by
  unfold dyTrunc
  split_ifs with h2
  · have h3 : x.num = 0 := le_antisymm h h2
    simp [h3]
  · exact neg_nonpos.mpr (by positivity)

lemma dyTrunc_neg (x : Dy) : dyTrunc ⟨-x.num, x.exp⟩ = -dyTrunc ⟨x.num, x.exp⟩ := by
  unfold dyTrunc
  dsimp only
  rcases lt_trichotomy x.num 0 with h | h | h
  · rw [if_pos (by omega : (0:ℤ) ≤ -x.num), if_neg (by omega : ¬(0:ℤ) ≤ x.num)]
    have e : (-x.num).toNat = x.num.natAbs := by omega
    rw [e]
    omega
  · simp [h]
  · rw [if_neg (by omega : ¬(0:ℤ) ≤ -x.num), if_pos (by omega : (0:ℤ) ≤ x.num)]
    have e : (-x.num).natAbs = x.num.toNat := by omega
    rw [e]

lemma nat_div_le_div_cross (a b ea eb : ℕ) (h : a * 2 ^ eb ≤ b * 2 ^ ea) :
    a / 2 ^ ea ≤ b / 2 ^ eb := by
  have e1 : a / 2 ^ ea = a * 2 ^ eb / (2 ^ ea * 2 ^ eb) := by
    rw [Nat.mul_div_mul_right _ _ (by positivity : (0:ℕ) < 2 ^ eb)]
  have e2 : b / 2 ^ eb = b * 2 ^ ea / (2 ^ ea * 2 ^ eb) := by
    rw [mul_comm ((2:ℕ) ^ ea) ((2:ℕ) ^ eb),
      Nat.mul_div_mul_right _ _ (by positivity : (0:ℕ) < 2 ^ ea)]
  rw [e1, e2]
  exact Nat.div_le_div_right h

/-- Truncation toward zero is monotone with respect to the exact values. -/
lemma dyTrunc_mono (x y : Dy) (h : x.num * 2 ^ y.exp ≤ y.num * 2 ^ x.exp) :
    dyTrunc x ≤ dyTrunc y := by
  rcases le_or_lt 0 x.num with hx | hx
  · have hy : 0 ≤ y.num := by
      by_contra hc
      push_neg at hc
      have h1 : 0 ≤ x.num * 2 ^ y.exp :=
        mul_nonneg hx (by positivity)
      have h2 : y.num * 2 ^ x.exp < 0 :=
        mul_neg_of_neg_of_pos hc (by positivity)
      linarith
    unfold dyTrunc
    rw [if_pos hx, if_pos hy]
    have hnat : x.num.toNat * 2 ^ y.exp ≤ y.num.toNat * 2 ^ x.exp := by
      have e1 : (x.num.toNat : ℤ) = x.num := Int.toNat_of_nonneg hx
      have e2 : (y.num.toNat : ℤ) = y.num := Int.toNat_of_nonneg hy
      have : (x.num.toNat : ℤ) * 2 ^ y.exp ≤ (y.num.toNat : ℤ) * 2 ^ x.exp := by
        rw [e1, e2]
        exact h
      exact_mod_cast this
    exact_mod_cast nat_div_le_div_cross _ _ _ _ hnat
  · rcases le_or_lt 0 y.num with hy | hy
    · exact le_trans (dyTrunc_nonpos x (by omega)) (dyTrunc_nonneg y hy)
    · unfold dyTrunc
      rw [if_neg (by omega), if_neg (by omega)]
      have hnat : y.num.natAbs * 2 ^ x.exp ≤ x.num.natAbs * 2 ^ y.exp := by
        have e1 : (x.num.natAbs : ℤ) = -x.num := by omega
        have e2 : (y.num.natAbs : ℤ) = -y.num := by omega
        have h2 : (y.num.natAbs : ℤ) * 2 ^ x.exp ≤ (x.num.natAbs : ℤ) * 2 ^ y.exp := by
          rw [e1, e2, neg_mul, neg_mul]
          linarith
        exact_mod_cast h2
      have hdiv := nat_div_le_div_cross _ _ _ _ hnat
      omega


/-- Monotonicity of binary32 rounding over positive dyadics, in the
cross-multiplied value order. -/
lemma fl32_scaled_mono_pos (mx my ex ey : ℕ) (hmx : 0 < mx) (hmy : 0 < my)
    (hlx : natLog2 mx < ex + 23) (hly : natLog2 my < ey + 23)
    (h : mx * 2 ^ ey ≤ my * 2 ^ ex) :
    (fl32 ⟨(mx : ℤ), ex⟩).num * 2 ^ (fl32 ⟨(my : ℤ), ey⟩).exp ≤
      (fl32 ⟨(my : ℤ), ey⟩).num * 2 ^ (fl32 ⟨(mx : ℤ), ex⟩).exp := by
  rw [fl32_eq_of_pos ⟨(mx : ℤ), ex⟩ (show (0:ℤ) < (mx : ℤ) by exact_mod_cast hmx)
      (by simpa using hlx),
    fl32_eq_of_pos ⟨(my : ℤ), ey⟩ (show (0:ℤ) < (my : ℤ) by exact_mod_cast hmy)
      (by simpa using hly)]
  dsimp only
  rw [Int.natAbs_ofNat, Int.natAbs_ofNat]
  exact_mod_cast mant_scaled_mono mx my ex ey hmx hmy (by omega) (by omega) h

/-- The positive-branch pipeline produces a nonnegative result. -/
lemma pipeline_nonneg (inv : Dy) (scale s : ℤ) (hs : 0 < s) (hi : 0 < inv.num)
    (hscale : 0 < scale) :
    0 ≤ dyTrunc (dyMulInt (dyMul ⟨s, 0⟩ inv) scale) := by
  apply dyTrunc_nonneg
  apply le_of_lt
  apply fl32_num_pos
  show 0 < (dyMul ⟨s, 0⟩ inv).num * scale
  apply mul_pos _ hscale
  apply fl32_num_pos
  show 0 < s * inv.num
  exact mul_pos hs hi

/-- The pipeline applied to a negative offset produces a nonpositive result. -/
lemma pipeline_nonpos (inv : Dy) (scale s : ℤ) (hs : s < 0) (hi : 0 < inv.num)
    (hscale : 0 < scale) :
    dyTrunc (dyMulInt (dyMul ⟨s, 0⟩ inv) scale) ≤ 0 := by
  apply dyTrunc_nonpos
  apply le_of_lt
  apply fl32_num_neg
  show (dyMul ⟨s, 0⟩ inv).num * scale < 0
  apply mul_neg_of_neg_of_pos _ hscale
  apply fl32_num_neg
  show s * inv.num < 0
  exact mul_neg_of_neg_of_pos hs hi

/-- The whole pipeline is odd in the offset. -/
lemma pipeline_odd (inv : Dy) (scale s : ℤ) :
    dyTrunc (dyMulInt (dyMul ⟨-s, 0⟩ inv) scale) =
      -dyTrunc (dyMulInt (dyMul ⟨s, 0⟩ inv) scale) := by
  have e1 : dyMul ⟨-s, 0⟩ inv =
      ⟨-(dyMul ⟨s, 0⟩ inv).num, (dyMul ⟨s, 0⟩ inv).exp⟩ := by
    unfold dyMul
    dsimp only
    rw [show -s * inv.num = -(s * inv.num) from by ring]
    exact fl32_neg ⟨s * inv.num, 0 + inv.exp⟩
  rw [e1]
  have e2 : dyMulInt ⟨-(dyMul ⟨s, 0⟩ inv).num, (dyMul ⟨s, 0⟩ inv).exp⟩ scale =
      ⟨-(dyMulInt (dyMul ⟨s, 0⟩ inv) scale).num,
        (dyMulInt (dyMul ⟨s, 0⟩ inv) scale).exp⟩ := by
    unfold dyMulInt
    dsimp only
    rw [show -(dyMul ⟨s, 0⟩ inv).num * scale =
      -((dyMul ⟨s, 0⟩ inv).num * scale) from by ring]
    exact fl32_neg ⟨(dyMul ⟨s, 0⟩ inv).num * scale, (dyMul ⟨s, 0⟩ inv).exp⟩
  rw [e2]
  exact dyTrunc_neg (dyMulInt (dyMul ⟨s, 0⟩ inv) scale)

/-- Monotonicity of the positive branch of the remap pipeline: truncation of
`s · inv · scale`, each multiplication rounded to binary32, is monotone in the
offset `s` for the parameter ranges of the four axis configurations. -/
lemma pipeline_mono (inv : Dy) (scale : ℤ)
    (hiN : 0 < inv.num) (hiB : inv.num ≤ 2 ^ 24)
    (hiE1 : 30 ≤ inv.exp) (hiE2 : inv.exp ≤ 40)
    (hsc1 : 0 < scale) (hsc2 : scale ≤ 32768)
    (s1 s2 : ℤ) (h1 : 0 < s1) (h12 : s1 ≤ s2) (h2 : s2 ≤ 4096) :
    dyTrunc (dyMulInt (dyMul ⟨s1, 0⟩ inv) scale) ≤
      dyTrunc (dyMulInt (dyMul ⟨s2, 0⟩ inv) scale) := by
  have h1' : 0 < s2 := lt_of_lt_of_le h1 h12
  obtain ⟨n1, hn1⟩ : ∃ n : ℕ, s1 * inv.num = (n : ℤ) :=
    ⟨_, (Int.toNat_of_nonneg (mul_pos h1 hiN).le).symm⟩
  obtain ⟨n2, hn2⟩ : ∃ n : ℕ, s2 * inv.num = (n : ℤ) :=
    ⟨_, (Int.toNat_of_nonneg (mul_pos h1' hiN).le).symm⟩
  have hn1p : 0 < n1 := by
    have h3 := mul_pos h1 hiN
    rw [hn1] at h3
    exact_mod_cast h3
  have hn2p : 0 < n2 := by
    have h3 := mul_pos h1' hiN
    rw [hn2] at h3
    exact_mod_cast h3
  have hn12 : n1 ≤ n2 := by
    have h3 : s1 * inv.num ≤ s2 * inv.num :=
      mul_le_mul_of_nonneg_right h12 hiN.le
    rw [hn1, hn2] at h3
    exact_mod_cast h3
  have hub2 : n2 < 2 ^ 37 := by
    have h3 : s2 * inv.num ≤ 4096 * 2 ^ 24 :=
      mul_le_mul h2 hiB hiN.le (by norm_num)
    rw [hn2] at h3
    have h4 : ((n2 : ℤ)) < 2 ^ 37 := lt_of_le_of_lt h3 (by norm_num)
    exact_mod_cast h4
  have hub1 : n1 < 2 ^ 37 := lt_of_le_of_lt hn12 hub2
  have hlog1 : natLog2 n1 ≤ 36 := natLog2_le_of_lt n1 36 hn1p hub1
  have hlog2 : natLog2 n2 ≤ 36 := natLog2_le_of_lt n2 36 hn2p hub2
  have hd1 : dyMul ⟨s1, 0⟩ inv = fl32 ⟨(n1 : ℤ), inv.exp⟩ := by
    unfold dyMul
    dsimp only
    rw [hn1, zero_add]
  have hd2 : dyMul ⟨s2, 0⟩ inv = fl32 ⟨(n2 : ℤ), inv.exp⟩ := by
    unfold dyMul
    dsimp only
    rw [hn2, zero_add]
  have hu1 : fl32 ⟨(n1 : ℤ), inv.exp⟩ =
      ⟨(mantOf n1 : ℤ), inv.exp + 23 - natLog2 n1⟩ := by
    apply fl32_eq_of_pos ⟨(n1 : ℤ), inv.exp⟩
      (show (0:ℤ) < (n1 : ℤ) by exact_mod_cast hn1p)
    show natLog2 ((n1 : ℤ)).natAbs < inv.exp + 23
    rw [Int.natAbs_ofNat]
    omega
  have hu2 : fl32 ⟨(n2 : ℤ), inv.exp⟩ =
      ⟨(mantOf n2 : ℤ), inv.exp + 23 - natLog2 n2⟩ := by
    apply fl32_eq_of_pos ⟨(n2 : ℤ), inv.exp⟩
      (show (0:ℤ) < (n2 : ℤ) by exact_mod_cast hn2p)
    show natLog2 ((n2 : ℤ)).natAbs < inv.exp + 23
    rw [Int.natAbs_ofNat]
    omega
  have hstep1 := fl32_scaled_mono_pos n1 n2 inv.exp inv.exp hn1p hn2p
    (by omega) (by omega) (mul_le_mul_right' hn12 _)
  rw [hu1, hu2] at hstep1
  dsimp only at hstep1
  have hstep1nat : mantOf n1 * 2 ^ (inv.exp + 23 - natLog2 n2) ≤
      mantOf n2 * 2 ^ (inv.exp + 23 - natLog2 n1) := by exact_mod_cast hstep1
  obtain ⟨q, hq⟩ : ∃ q : ℕ, scale = (q : ℤ) :=
    ⟨_, (Int.toNat_of_nonneg hsc1.le).symm⟩
  have hqp : 0 < q := by
    rw [hq] at hsc1
    exact_mod_cast hsc1
  have hqb : q ≤ 32768 := by
    rw [hq] at hsc2
    exact_mod_cast hsc2
  have hp1 : (mantOf n1 : ℤ) * scale = ((mantOf n1 * q : ℕ) : ℤ) := by
    rw [hq]
    push_cast
    ring
  have hp2 : (mantOf n2 : ℤ) * scale = ((mantOf n2 * q : ℕ) : ℤ) := by
    rw [hq]
    push_cast
    ring
  have hmant1 := mantOf_upper n1 hn1p
  have hmant2 := mantOf_upper n2 hn2p
  have hpb1 : mantOf n1 * q < 2 ^ 40 := by
    have h3 : mantOf n1 * q ≤ 2 ^ 24 * 32768 :=
      mul_le_mul hmant1 hqb (by omega) (by norm_num)
    have h4 : (2:ℕ) ^ 24 * 32768 < 2 ^ 40 := by norm_num
    omega
  have hpb2 : mantOf n2 * q < 2 ^ 40 := by
    have h3 : mantOf n2 * q ≤ 2 ^ 24 * 32768 :=
      mul_le_mul hmant2 hqb (by omega) (by norm_num)
    have h4 : (2:ℕ) ^ 24 * 32768 < 2 ^ 40 := by norm_num
    omega
  have hpp1 : 0 < mantOf n1 * q :=
    Nat.mul_pos (lt_of_lt_of_le (by positivity) (mantOf_lower n1 hn1p)) hqp
  have hpp2 : 0 < mantOf n2 * q :=
    Nat.mul_pos (lt_of_lt_of_le (by positivity) (mantOf_lower n2 hn2p)) hqp
  have hplog1 : natLog2 (mantOf n1 * q) ≤ 39 :=
    natLog2_le_of_lt _ 39 hpp1 hpb1
  have hplog2 : natLog2 (mantOf n2 * q) ≤ 39 :=
    natLog2_le_of_lt _ 39 hpp2 hpb2
  have hvle : mantOf n1 * q * 2 ^ (inv.exp + 23 - natLog2 n2) ≤
      mantOf n2 * q * 2 ^ (inv.exp + 23 - natLog2 n1) := by
    calc mantOf n1 * q * 2 ^ (inv.exp + 23 - natLog2 n2)
        = mantOf n1 * 2 ^ (inv.exp + 23 - natLog2 n2) * q := by ring
      _ ≤ mantOf n2 * 2 ^ (inv.exp + 23 - natLog2 n1) * q :=
          mul_le_mul_right' hstep1nat q
      _ = mantOf n2 * q * 2 ^ (inv.exp + 23 - natLog2 n1) := by ring
  have hstep2 := fl32_scaled_mono_pos (mantOf n1 * q) (mantOf n2 * q)
    (inv.exp + 23 - natLog2 n1) (inv.exp + 23 - natLog2 n2) hpp1 hpp2
    (by omega) (by omega) hvle
  rw [hd1, hd2, hu1, hu2]
  unfold dyMulInt
  dsimp only
  rw [hp1, hp2]
  exact dyTrunc_mono _ _ hstep2


/-- Monotonicity of the sign-branched remap in the offset `s`, given the
computed properties of the two reciprocal constants of the configuration. -/
lemma RemapAxisSigned_mono (cfg : RemapConfig)
    (hpN : 0 < (flInv (cfg.maxV - cfg.neutral).toNat).num)
    (hpB : (flInv (cfg.maxV - cfg.neutral).toNat).num ≤ 2 ^ 24)
    (hpE1 : 30 ≤ (flInv (cfg.maxV - cfg.neutral).toNat).exp)
    (hpE2 : (flInv (cfg.maxV - cfg.neutral).toNat).exp ≤ 40)
    (hnN : 0 < (flInv (cfg.neutral - cfg.minV).toNat).num)
    (hnB : (flInv (cfg.neutral - cfg.minV).toNat).num ≤ 2 ^ 24)
    (hnE1 : 30 ≤ (flInv (cfg.neutral - cfg.minV).toNat).exp)
    (hnE2 : (flInv (cfg.neutral - cfg.minV).toNat).exp ≤ 40)
    (s1 s2 : ℤ) (hb1 : -4096 ≤ s1) (h12 : s1 ≤ s2) (hb2 : s2 ≤ 4096) :
    RemapAxisSigned cfg s1 ≤ RemapAxisSigned cfg s2 := by
  simp only [RemapAxisSigned]
  by_cases hs1 : 0 < s1
  · rw [if_pos hs1, if_pos (by omega : 0 < s2)]
    exact pipeline_mono _ 0x7FFF hpN hpB hpE1 hpE2 (by norm_num) (by norm_num)
      s1 s2 hs1 h12 hb2
  · by_cases hs2 : 0 < s2
    · rw [if_neg hs1, if_pos hs2]
      have hrhs : 0 ≤ dyTrunc (dyMulInt
          (dyMul ⟨s2, 0⟩ (flInv (cfg.maxV - cfg.neutral).toNat)) 0x7FFF) :=
        pipeline_nonneg _ _ s2 hs2 hpN (by norm_num)
      split_ifs with h3
      · exact le_trans (pipeline_nonpos _ _ s1 h3 hnN (by norm_num)) hrhs
      · exact hrhs
    · rw [if_neg hs1, if_neg hs2]
      by_cases hs2n : s2 < 0
      · rw [if_pos (by omega : s1 < 0), if_pos hs2n]
        have o1 := pipeline_odd (flInv (cfg.neutral - cfg.minV).toNat) 0x8000 (-s1)
        have o2 := pipeline_odd (flInv (cfg.neutral - cfg.minV).toNat) 0x8000 (-s2)
        rw [neg_neg] at o1 o2
        rw [o1, o2]
        have hm := pipeline_mono _ 0x8000 hnN hnB hnE1 hnE2 (by norm_num)
          (by norm_num) (-s2) (-s1) (by omega) (by omega) (by omega)
        omega
      · rw [if_neg hs2n]
        split_ifs with h3
        · exact pipeline_nonpos _ _ s1 h3 hnN (by norm_num)
        · exact le_refl 0

/-- Claim C4, counterexample: the right-Y axis maps its maximum raw value
0xE20 to 32766 (0x7FFE), not to 0x7FFF as the claim asserts for every axis. -/
theorem C4_counterexample :
    RemapAxis RamapConfigRightY 0xE20 ≠ 0x7FFF ∧
    RemapAxis RamapConfigRightY 0xE20 = 32766 := by
  exact ⟨by decide, by decide⟩

/-- Claim C4 as amended: on each axis the remap is monotone non-decreasing
over the valid raw range, maps the neutral constant to 0 and the min constant
to -0x8000; it maps the max constant to 0x7FFF on left-X, left-Y and right-X,
but on right-Y the max constant maps to 0x7FFE (one unit short, a consequence
of the rounded reciprocal of its 1712-wide positive range). -/
theorem C4_amended (cfg : RemapConfig)
    (hc : cfg = RamapConfigLeftX ∨ cfg = RamapConfigLeftY ∨
      cfg = RamapConfigRightX ∨ cfg = RamapConfigRightY)
    (v1 v2 : ℕ) (hv1 : cfg.minV.toNat ≤ v1) (h12 : v1 ≤ v2)
    (hv2 : v2 ≤ cfg.maxV.toNat) :
    RemapAxis cfg v1 ≤ RemapAxis cfg v2 ∧
    RemapAxis cfg cfg.neutral.toNat = 0 ∧
    RemapAxis cfg cfg.minV.toNat = -0x8000 ∧
    (cfg = RamapConfigRightY ∨ RemapAxis cfg cfg.maxV.toNat = 0x7FFF) ∧
    RemapAxis RamapConfigRightY 0xE20 = 0x7FFE := by
  refine ⟨?_, ?_, ?_, ?_, by decide⟩
  · unfold RemapAxis
    rcases hc with rfl | rfl | rfl | rfl <;>
    · simp only [RamapConfigLeftX, RamapConfigLeftY, RamapConfigRightX,
        RamapConfigRightY] at hv1 hv2 ⊢
      rw [toInt16_eq v1 (by omega), toInt16_eq v2 (by omega)]
      apply RemapAxisSigned_mono _ (by decide) (by decide) (by decide)
        (by decide) (by decide) (by decide) (by decide) (by decide) <;>
      · simp only [Int.max_def, Int.min_def]
        split_ifs <;> omega
  · rcases hc with rfl | rfl | rfl | rfl <;> decide
  · rcases hc with rfl | rfl | rfl | rfl <;> decide
  · rcases hc with rfl | rfl | rfl | rfl
    · exact Or.inr (by decide)
    · exact Or.inr (by decide)
    · exact Or.inr (by decide)
    · exact Or.inl rfl

/-- Witness for C4_amended at a concrete input. -/
theorem C4_amended_witness :
    RemapAxis RamapConfigLeftX 0x700 ≤ RemapAxis RamapConfigLeftX 0x800 :=
  (C4_amended RamapConfigLeftX (Or.inl rfl) 0x700 0x800 (by decide) (by decide)
    (by decide)).1

end Hagr
